import Mathlib

/-!
# CivicHub: report lifecycle and aggregation logic

A shallow embedding of the logic in `src/Pages/*.jsx` (upvote toggling, feed
filtering and ranking, dashboard counts, status updates, export rows and the
exported CSV text, report creation and its photos) and theorems about it.

JavaScript values are modelled as follows: strings are `String`, arrays are
`List`, a field that the page code reads defensively (`?.`, `|| 0`, `|| []`)
or that may be absent on a stored record is an `Option`, numbers that are
counts are `Int`, and a thrown exception is the `error` case of `Except`.
-/

namespace CivicHub

/-! ## Data model -/

/-- Exceptions raised while the page code runs. -/
inductive JsError where
  | typeError (msg : String)
  | rangeError (msg : String)
  | error (msg : String)
deriving DecidableEq, Repr

/-- Equality of outcomes is decidable when equality of errors and of results
is. -/
instance exceptDecidableEq {ε α : Type} [DecidableEq ε] [DecidableEq α] :
    DecidableEq (Except ε α)
  | Except.ok a, Except.ok b =>
    if h : a = b then isTrue (by rw [h]) else isFalse (fun hab => h (Except.ok.inj hab))
  | Except.error a, Except.error b =>
    if h : a = b then isTrue (by rw [h]) else isFalse (fun hab => h (Except.error.inj hab))
  | Except.ok _, Except.error _ => isFalse (fun hab => Except.noConfusion hab)
  | Except.error _, Except.ok _ => isFalse (fun hab => Except.noConfusion hab)

/-- The object returned by `base44.auth.me()`. -/
structure User where
  email : String
  role : String
deriving DecidableEq, Repr

/-- A `ProblemReport` record as read from the store. `id` is assigned by the
store; every other field may be absent on a record. -/
structure Report where
  id : String
  created_date : Option String
  title : Option String
  description : Option String
  location : Option String
  category : Option String
  status : Option String
  sentiment : Option String
  upvotes : Option (List String)
  upvote_count : Option Int
  comment_count : Option Int
  photo_urls : Option (List String)
  created_by : Option String
deriving DecidableEq, Repr

/-- The second argument of `ProblemReport.update`: the fields to overwrite.
A field that is `none` is not a key of the object. -/
structure PartialFields where
  title : Option String
  description : Option String
  location : Option String
  category : Option String
  status : Option String
  sentiment : Option String
  upvotes : Option (List String)
  upvote_count : Option Int
  comment_count : Option Int
  photo_urls : Option (List String)
  created_by : Option String
deriving DecidableEq, Repr

/-- The object with no key. -/
def PartialFields.empty : PartialFields :=
  { title := none
    description := none
    location := none
    category := none
    status := none
    sentiment := none
    upvotes := none
    upvote_count := none
    comment_count := none
    photo_urls := none
    created_by := none }

/-- A call issued to the report store. -/
inductive StoreCall where
  | update (id : String) (fields : PartialFields)
deriving DecidableEq, Repr

/-- A field after a partial update: the written value when the key is
present, the stored value otherwise. -/
def overwrite {α : Type} (written stored : Option α) : Option α :=
  match written with
  | some v => some v
  | none => stored

/-- Modelled from the spec: `Store.update(id, partialFields)` of the external
report store, which overwrites exactly the listed fields of the record and
leaves the others as they are (last write wins on a whole field). -/
def Store.update (r : Report) (fields : PartialFields) : Report :=
  { id := r.id
    created_date := r.created_date
    title := overwrite fields.title r.title
    description := overwrite fields.description r.description
    location := overwrite fields.location r.location
    category := overwrite fields.category r.category
    status := overwrite fields.status r.status
    sentiment := overwrite fields.sentiment r.sentiment
    upvotes := overwrite fields.upvotes r.upvotes
    upvote_count := overwrite fields.upvote_count r.upvote_count
    comment_count := overwrite fields.comment_count r.comment_count
    photo_urls := overwrite fields.photo_urls r.photo_urls
    created_by := overwrite fields.created_by r.created_by }

/-! ## ToggleUpvote (`upvoteMutation.mutationFn`) -/

/-- The expression `report.upvotes || []`. -/
def upvotesOrEmpty (report : Report) : List String :=
  match report.upvotes with
  | some ups => ups
  | none => []

/-- The expression `report.upvotes?.includes(user.email)`, read as a
condition (`undefined` is falsy). -/
def hasUpvoted (report : Report) (email : String) : Bool :=
  match report.upvotes with
  | some ups => ups.contains email
  | none => false

/-- The array `newUpvotes`: the acting user filtered out when `hasUpvoted`,
appended at the end otherwise. -/
def newUpvotes (report : Report) (email : String) : List String :=
  if hasUpvoted report email then
    (upvotesOrEmpty report).filter (fun e => e != email)
  else
    upvotesOrEmpty report ++ [email]

/-- The update the three pages send: both fields in one object. -/
def upvoteUpdate (report : Report) (email : String) : StoreCall :=
  StoreCall.update report.id
    { PartialFields.empty with
      upvotes := some (newUpvotes report email)
      upvote_count := some ((newUpvotes report email).length : Int) }

/-- The `mutationFn` of `upvoteMutation` in `Feed.jsx`. With `user` still
`null` the read of `user.email` throws a `TypeError`. -/
def Feed.upvoteMutation (user : Option User) (report : Report) : Except JsError StoreCall :=
  match user with
  | none => Except.error (JsError.typeError "Cannot read properties of null (reading 'email')")
  | some u => Except.ok (upvoteUpdate report u.email)

/-- The `mutationFn` of `upvoteMutation` in `MyReports.jsx`, the same text as
in `Feed.jsx`. -/
def MyReports.upvoteMutation (user : Option User) (report : Report) : Except JsError StoreCall :=
  match user with
  | none => Except.error (JsError.typeError "Cannot read properties of null (reading 'email')")
  | some u => Except.ok (upvoteUpdate report u.email)

/-- The `mutationFn` of `upvoteMutation` in `ReportDetails.jsx`, which first
checks `if (!user)` and throws `new Error("User not authenticated.")`. -/
def ReportDetails.upvoteMutation (user : Option User) (report : Report) : Except JsError StoreCall :=
  match user with
  | none => Except.error (JsError.error "User not authenticated.")
  | some u => Except.ok (upvoteUpdate report u.email)

/-- The pages that carry an upvote button. -/
inductive Page where
  | feed
  | myReports
  | reportDetails
deriving DecidableEq, Repr

/-- The upvote mutation of a given page. -/
def upvoteMutationOn (page : Page) (user : Option User) (report : Report) :
    Except JsError StoreCall :=
  match page with
  | Page.feed => Feed.upvoteMutation user report
  | Page.myReports => MyReports.upvoteMutation user report
  | Page.reportDetails => ReportDetails.upvoteMutation user report

/-- The report held by the store once a call has been applied to `r`. -/
def applyCall (r : Report) (call : StoreCall) : Report :=
  match call with
  | StoreCall.update _ fields => Store.update r fields

/-- ToggleUpvote followed by the store write, on a given page: the stored
report after the acting user clicked once. -/
def toggleAndStore (page : Page) (user : Option User) (r : Report) : Except JsError Report :=
  match upvoteMutationOn page user r with
  | Except.ok call => Except.ok (applyCall r call)
  | Except.error e => Except.error e

/-- The number of distinct user identifiers in a list of upvoters. -/
def distinctCount (ups : List String) : Nat :=
  ups.dedup.length

/-! ## Feed: filtering (`filteredReports`) -/

/-- The state held by `useState` for the filter bar. -/
structure Filters where
  location : String
  category : String
  status : String
deriving DecidableEq, Repr

/-- The initial value of the `filters` state. -/
def Feed.initialFilters : Filters :=
  { location := "", category := "all", status := "all" }

/-- Whether `search` occurs in `text` as a contiguous run of characters. -/
def isSubstring (search : List Char) : List Char → Bool
  | [] => search.isEmpty
  | c :: cs => search.isPrefixOf (c :: cs) || isSubstring search cs

/-- The method `String.prototype.includes`. -/
def includes (text search : String) : Bool :=
  isSubstring search.data text.data

/-- ASCII lower-casing, the behaviour of `String.prototype.toLowerCase` on
strings of ASCII characters. -/
def toLowerCaseAscii (s : String) : String :=
  String.mk (s.data.map Char.toLower)

/-- The constant `locationMatch` of the filter callback. The right operand of
`||` is evaluated only for a non-empty filter; it calls `toLowerCase` on
`report.location`, which throws when the report has no location. The
lower-casing function of the runtime is a parameter. -/
def locationMatch (toLowerCase : String → String) (filters : Filters) (report : Report) :
    Except JsError Bool :=
  if filters.location = "" then Except.ok true
  else
    match report.location with
    | none =>
      Except.error (JsError.typeError "Cannot read properties of undefined (reading 'toLowerCase')")
    | some loc => Except.ok (includes (toLowerCase loc) (toLowerCase filters.location))

/-- The constant `categoryMatch` of the filter callback. -/
def categoryMatch (filters : Filters) (report : Report) : Bool :=
  decide (filters.category = "all") || decide (report.category = some filters.category)

/-- The constant `statusMatch` of the filter callback. -/
def statusMatch (filters : Filters) (report : Report) : Bool :=
  decide (filters.status = "all") || decide (report.status = some filters.status)

/-- The callback passed to `reports.filter` in `Feed.jsx`. -/
def filterCallback (toLowerCase : String → String) (filters : Filters) (report : Report) :
    Except JsError Bool :=
  match locationMatch toLowerCase filters report with
  | Except.error e => Except.error e
  | Except.ok l => Except.ok (l && categoryMatch filters report && statusMatch filters report)

/-- The method `Array.prototype.filter` with a callback that may throw: the
callback runs on the elements in order and the first exception aborts. -/
def filterArray {α : Type} (callback : α → Except JsError Bool) : List α → Except JsError (List α)
  | [] => Except.ok []
  | x :: xs =>
    match callback x with
    | Except.error e => Except.error e
    | Except.ok keep =>
      match filterArray callback xs with
      | Except.error e => Except.error e
      | Except.ok rest => Except.ok (if keep then x :: rest else rest)

/-- The constant `filteredReports` of `Feed.jsx`. -/
def filteredReports (toLowerCase : String → String) (reports : List Report) (filters : Filters) :
    Except JsError (List Report) :=
  filterArray (filterCallback toLowerCase filters) reports

/-! ## Feed: ranking (`topReports`) -/

/-- One insertion step of the stable sort: `x`, which precedes every element
of the list in the input, goes before the first `y` that it does not have to
follow (`compareFn x y ≤ 0`). -/
def sortInsert {α : Type} (compareFn : α → α → Int) (x : α) : List α → List α
  | [] => [x]
  | y :: ys => if compareFn x y ≤ 0 then x :: y :: ys else y :: sortInsert compareFn x ys

/-- The method `Array.prototype.sort` with a comparator. The sort is stable
(ECMAScript 2019): `a` comes before `b` when `compareFn a b < 0`, after it when
`compareFn a b > 0`, and elements that compare equal keep their input order.
For a consistent comparator this fixes the result; it is computed here by
insertion from the right. -/
def sort {α : Type} (compareFn : α → α → Int) : List α → List α
  | [] => []
  | x :: xs => sortInsert compareFn x (sort compareFn xs)

/-- The expression `report.upvote_count || 0`. -/
def upvoteCountOrZero (report : Report) : Int :=
  match report.upvote_count with
  | some c => c
  | none => 0

/-- The comparator `(a, b) => (b.upvote_count || 0) - (a.upvote_count || 0)`. -/
def byUpvotesDesc (a b : Report) : Int :=
  upvoteCountOrZero b - upvoteCountOrZero a

/-- The constant `topReports` of `Feed.jsx`, as a function of
`filteredReports`: a sorted copy cut by `slice(0, 3)`. -/
def topReports (filteredReports : List Report) : List Report :=
  (sort byUpvotesDesc filteredReports).take 3

/-- The list `topReports` as the page computes it from `reports` and
`filters`; the panel that shows it is rendered only while the three filters
are at their initial values. -/
def feedTopReports (toLowerCase : String → String) (reports : List Report) (filters : Filters) :
    Except JsError (List Report) :=
  match filteredReports toLowerCase reports filters with
  | Except.ok kept => Except.ok (topReports kept)
  | Except.error e => Except.error e

/-! ## Admin dashboard: `updateStatusMutation` -/

/-- The `mutationFn` of `updateStatusMutation`: it writes the status it is
given, whatever the string. -/
def AdminDashboard.updateStatusMutation (reportId newStatus : String) : StoreCall :=
  StoreCall.update reportId { PartialFields.empty with status := some newStatus }

/-! ## Dashboards: `statusCounts` -/

/-- The object `statusCounts` of `AdminDashboard.jsx`. -/
structure StatusCounts where
  total : Nat
  reported : Nat
  under_review : Nat
  action_initiated : Nat
  resolved : Nat
deriving DecidableEq, Repr

/-- The expression `reports.filter(r => r.status === s).length`. -/
def countStatus (reports : List Report) (s : String) : Nat :=
  (reports.filter (fun r => decide (r.status = some s))).length

/-- The constant `statusCounts` of `AdminDashboard.jsx`. -/
def AdminDashboard.statusCounts (reports : List Report) : StatusCounts :=
  { total := reports.length
    reported := countStatus reports "reported"
    under_review := countStatus reports "under_review"
    action_initiated := countStatus reports "action_initiated"
    resolved := countStatus reports "resolved" }

/-- The object `statusCounts` of `MyReports.jsx`, which has no `total`. -/
structure MyReports.StatusCounts where
  reported : Nat
  under_review : Nat
  action_initiated : Nat
  resolved : Nat
deriving DecidableEq, Repr

/-- The constant `statusCounts` of `MyReports.jsx`. -/
def MyReports.statusCounts (reports : List Report) : MyReports.StatusCounts :=
  { reported := countStatus reports "reported"
    under_review := countStatus reports "under_review"
    action_initiated := countStatus reports "action_initiated"
    resolved := countStatus reports "resolved" }

/-- The fixed status enumeration of the data model. -/
def statusEnumeration : List String :=
  ["reported", "under_review", "action_initiated", "resolved"]

/-! ## Admin dashboard: export rows (`exportData`) -/

/-- The values that occur as cells of an export row. `object` stands for a
member of `Object.prototype` (a function or an object), known by its string
form. -/
inductive JsValue where
  | undefined
  | str (s : String)
  | num (n : Int)
  | object (text : String)
deriving DecidableEq, Repr

/-- A field that may be absent, as a value. -/
def JsValue.ofField : Option String → JsValue
  | some s => JsValue.str s
  | none => JsValue.undefined

/-- The constant `categoryLabels`, in source order. -/
def categoryLabels : List (String × String) :=
  [ ("roads_potholes", "Roads & Potholes"),
    ("water_sanitation", "Water & Sanitation"),
    ("street_lights", "Street Lights"),
    ("garbage_waste", "Garbage & Waste"),
    ("parks_recreation", "Parks & Recreation"),
    ("public_safety", "Public Safety"),
    ("other", "Other") ]

/-- The expression `categoryLabels[report.category]`: the label of a listed
category; for any other key the member of `Object.prototype` of that name
when there is one (`constructor`, `toString`, ...), else `undefined`.
`inheritedText key` is the string form the running engine gives that
member, if `Object.prototype` has it. -/
def categoryLabel (inheritedText : String → Option String) (category : Option String) :
    JsValue :=
  match category with
  | none => JsValue.undefined
  | some c =>
    match categoryLabels.lookup c with
    | some label => JsValue.str label
    | none =>
      match inheritedText c with
      | some text => JsValue.object text
      | none => JsValue.undefined

/-- The call `status.replace(/_/g, ' ')`. -/
def replaceUnderscores (status : String) : String :=
  String.mk (status.data.map (fun c => if c = '_' then ' ' else c))

/-- The expression `report.upvote_count || 0` and its sibling for comments:
an absent count and a zero count both give `0`. -/
def countOrZero (count : Option Int) : Int :=
  match count with
  | some c => c
  | none => 0

/-- The expression `report.sentiment || 'neutral'`: the empty string is
falsy. -/
def sentimentOrNeutral (sentiment : Option String) : String :=
  match sentiment with
  | some s => if s = "" then "neutral" else s
  | none => "neutral"

/-- The expression `report.photo_urls?.join(', ') || ''`. -/
def joinPhotoUrls (photo_urls : Option (List String)) : String :=
  match photo_urls with
  | some urls => String.intercalate ", " urls
  | none => ""

/-- An export row: the keys of the object literal in source order, each with
its value. -/
abbrev ExportRow := List (String × JsValue)

/-- The callback passed to `.map` in `exportReports`. The date cell is
`format(new Date(report.created_date), 'yyyy-MM-dd HH:mm')` of the date
library: `formatDate` gives the formatted text of a timestamp or throws the
library's `RangeError` on a text that is no date, and an absent
`created_date` is no date either. The read of `report.status.replace`, which
comes first, throws when the report has no status. -/
def exportRow (formatDate : String → Except JsError String)
    (inheritedText : String → Option String) (report : Report) : Except JsError ExportRow :=
  match report.status with
  | none =>
    Except.error (JsError.typeError "Cannot read properties of undefined (reading 'replace')")
  | some status =>
    match report.created_date with
    | none => Except.error (JsError.rangeError "Invalid time value")
    | some created =>
      match formatDate created with
      | Except.error e => Except.error e
      | Except.ok date =>
        Except.ok
          [ ("Title", JsValue.ofField report.title),
            ("Description", JsValue.ofField report.description),
            ("Location", JsValue.ofField report.location),
            ("Category", categoryLabel inheritedText report.category),
            ("Status", JsValue.str (replaceUnderscores status)),
            ("Upvotes", JsValue.num (countOrZero report.upvote_count)),
            ("Comments", JsValue.num (countOrZero report.comment_count)),
            ("Sentiment", JsValue.str (sentimentOrNeutral report.sentiment)),
            ("Reported By", JsValue.ofField report.created_by),
            ("Date", JsValue.str date),
            ("Photo URLs", JsValue.str (joinPhotoUrls report.photo_urls)) ]

/-- The callback passed to `.filter` in `exportReports`:
`r.status === 'reported' || r.status === 'under_review'`. -/
def isForAuthorities (r : Report) : Bool :=
  decide (r.status = some "reported") || decide (r.status = some "under_review")

/-- The method `Array.prototype.map` with a callback that may throw. -/
def mapArray {α β : Type} (callback : α → Except JsError β) : List α → Except JsError (List β)
  | [] => Except.ok []
  | x :: xs =>
    match callback x with
    | Except.error e => Except.error e
    | Except.ok y =>
      match mapArray callback xs with
      | Except.error e => Except.error e
      | Except.ok ys => Except.ok (y :: ys)

/-- The constant `exportData` of `exportReports`: filter, then map. -/
def exportData (formatDate : String → Except JsError String)
    (inheritedText : String → Option String) (reports : List Report) :
    Except JsError (List ExportRow) :=
  mapArray (exportRow formatDate inheritedText) (reports.filter isForAuthorities)

/-! ## Report creation (`handleSubmit`, `createReportMutation`) -/

/-- The `formData` state of `ReportProblem.jsx`. -/
structure FormData where
  title : String
  description : String
  location : String
  category : String
deriving DecidableEq, Repr

/-- The object `handleSubmit` passes to `mutateAsync`. -/
structure ReportData where
  title : String
  description : String
  location : String
  category : String
  photo_urls : List String
  status : String
  upvotes : List String
  upvote_count : Int
deriving DecidableEq, Repr

/-- The object the classifier call resolves to; both properties of the
response schema are optional. -/
structure SentimentAnalysis where
  sentiment : Option String
  reason : Option String
deriving DecidableEq, Repr

/-- The record passed to `ProblemReport.create`. -/
structure NewReport where
  title : String
  description : String
  location : String
  category : String
  photo_urls : List String
  status : String
  upvotes : List String
  upvote_count : Int
  sentiment : Option String
  comment_count : Int
deriving DecidableEq, Repr

/-- The prompt template of the classifier call. -/
def sentimentPrompt (reportData : ReportData) : String :=
  "Analyze the sentiment and urgency of this civic problem report. Classify it as one of: urgent (immediate danger/severe issue), concerned (significant problem), neutral (informational), or positive (improvement/thank you). \n\nTitle: \""
    ++ reportData.title ++ "\"\nDescription: \"" ++ reportData.description ++ "\""

/-- What a run of `handleSubmit` did: the final value of the `error` state,
the prompts sent to the classifier and the records passed to
`ProblemReport.create`, each in call order. -/
structure SubmitOutcome where
  error : Option String
  classifierCalls : List String
  createCalls : List NewReport
deriving DecidableEq, Repr

/-- The message of a thrown exception. -/
def JsError.message : JsError → String
  | JsError.typeError msg => msg
  | JsError.rangeError msg => msg
  | JsError.error msg => msg

/-- The `onError` handler of `createReportMutation`:
`err.message || "Failed to create report. Please try again."`. -/
def createReportMutation.onError (err : JsError) : String :=
  if err.message = "" then "Failed to create report. Please try again." else err.message

/-- The `mutationFn` of `createReportMutation` followed by its `onError`
handler. `InvokeLLM` is the classifier service and `create` the store, both
external; either may fail. -/
def createReportMutation.mutateAsync
    (InvokeLLM : String → Except JsError SentimentAnalysis)
    (create : NewReport → Except JsError Unit)
    (reportData : ReportData) : SubmitOutcome :=
  match InvokeLLM (sentimentPrompt reportData) with
  | Except.error err =>
    { error := some (createReportMutation.onError err)
      classifierCalls := [sentimentPrompt reportData]
      createCalls := [] }
  | Except.ok sentimentAnalysis =>
    let record : NewReport :=
      { title := reportData.title
        description := reportData.description
        location := reportData.location
        category := reportData.category
        photo_urls := reportData.photo_urls
        status := reportData.status
        upvotes := reportData.upvotes
        upvote_count := reportData.upvote_count
        sentiment := sentimentAnalysis.sentiment
        comment_count := 0 }
    match create record with
    | Except.error err =>
      { error := some (createReportMutation.onError err)
        classifierCalls := [sentimentPrompt reportData]
        createCalls := [record] }
    | Except.ok _ =>
      { error := none
        classifierCalls := [sentimentPrompt reportData]
        createCalls := [record] }

/-- The object literal `handleSubmit` builds: the form data extended with
the photos and the initial status and upvote fields. -/
def submittedReportData (formData : FormData) (photos : List String) : ReportData :=
  { title := formData.title
    description := formData.description
    location := formData.location
    category := formData.category
    photo_urls := photos
    status := "reported"
    upvotes := []
    upvote_count := 0 }

/-- The handler `handleSubmit`: it clears the error, rejects a form with an
empty required field, and otherwise runs the mutation. -/
def handleSubmit
    (InvokeLLM : String → Except JsError SentimentAnalysis)
    (create : NewReport → Except JsError Unit)
    (formData : FormData) (photos : List String) : SubmitOutcome :=
  if formData.title = "" ∨ formData.description = "" ∨ formData.location = ""
      ∨ formData.category = "" then
    { error := some "Please fill in all required fields"
      classifierCalls := []
      createCalls := [] }
  else
    createReportMutation.mutateAsync InvokeLLM create (submittedReportData formData photos)

/-! ## Report creation: photos (`handlePhotoUpload`, `removePhoto`) -/

/-- The states `photos` and `error` of `ReportProblem.jsx`. -/
structure PhotoState where
  photos : List String
  error : Option String
deriving DecidableEq, Repr

/-- The initial values `useState([])` and `useState(null)`. -/
def PhotoState.initial : PhotoState :=
  { photos := [], error := none }

/-- The handler `handlePhotoUpload` on the selected files. `UploadFile` is the
external upload service, which gives the URL of a stored file or fails;
`Promise.all` fails when one upload does. -/
def handlePhotoUpload (UploadFile : String → Except JsError String) (state : PhotoState)
    (files : List String) : PhotoState :=
  if state.photos.length + files.length > 5 then
    { photos := state.photos, error := some "Maximum 5 photos allowed" }
  else
    match mapArray UploadFile files with
    | Except.ok urls => { photos := state.photos ++ urls, error := none }
    | Except.error _ =>
      { photos := state.photos, error := some "Error uploading photos. Please try again." }

/-- The handler `removePhoto`: `photos.filter((_, i) => i !== index)`. -/
def removePhoto (state : PhotoState) (index : Nat) : PhotoState :=
  { photos := (state.photos.enum.filter (fun p => p.1 != index)).map Prod.snd
    error := state.error }

/-- One user action on the photo list. -/
inductive PhotoStep where
  | upload (files : List String)
  | remove (index : Nat)
deriving DecidableEq, Repr

/-- The state after one action. -/
def photoStep (UploadFile : String → Except JsError String) (state : PhotoState) :
    PhotoStep → PhotoState
  | PhotoStep.upload files => handlePhotoUpload UploadFile state files
  | PhotoStep.remove index => removePhoto state index

/-- The state after a sequence of actions, each applied to the state left by
the previous one, starting from the initial state. -/
def runPhotoSteps (UploadFile : String → Except JsError String) (steps : List PhotoStep) :
    PhotoState :=
  steps.foldl (photoStep UploadFile) PhotoState.initial

/-! ## Admin dashboard: the role gate (`loadUser`) -/

/-- The helper `createPageUrl` defined in `AdminDashboard.jsx`. -/
def AdminDashboard.createPageUrl (pageName : String) : String :=
  if pageName = "Landing" then "/"
  else if pageName = "Feed" then "/feed"
  else "/" ++ toLowerCaseAscii pageName

/-- What `loadUser` leaves behind: the `user` state, the route passed to
`navigate` if any, and the `isCheckingAuth` state. -/
structure AuthOutcome where
  user : Option User
  navigatedTo : Option String
  isCheckingAuth : Bool
deriving DecidableEq, Repr

/-- The effect `loadUser` of `AdminDashboard.jsx`, given the outcomes of
`base44.auth.isAuthenticated()` and `base44.auth.me()`. -/
def AdminDashboard.loadUser (isAuthenticated : Except JsError Bool) (me : Except JsError User) :
    AuthOutcome :=
  match isAuthenticated with
  | Except.error _ =>
    { user := none, navigatedTo := some (AdminDashboard.createPageUrl "Landing")
      isCheckingAuth := false }
  | Except.ok false =>
    { user := none, navigatedTo := some (AdminDashboard.createPageUrl "Landing")
      isCheckingAuth := false }
  | Except.ok true =>
    match me with
    | Except.error _ =>
      { user := none, navigatedTo := some (AdminDashboard.createPageUrl "Landing")
        isCheckingAuth := false }
    | Except.ok currentUser =>
      if currentUser.role ≠ "admin" then
        { user := none, navigatedTo := some (AdminDashboard.createPageUrl "Feed")
          isCheckingAuth := false }
      else
        { user := some currentUser, navigatedTo := none, isCheckingAuth := false }

/-! ## Admin dashboard: CSV text (`csvContent`) -/

/-- The expression `row[header]`: the value under a key, `undefined` when the
row has no such key. -/
def rowValue (row : ExportRow) (header : String) : JsValue :=
  match row.lookup header with
  | some v => v
  | none => JsValue.undefined

/-- The expression `value || ''`: `undefined`, the empty string and the
number 0 are falsy and give the empty string; any other value is kept. -/
def JsValue.orEmpty : JsValue → JsValue
  | JsValue.undefined => JsValue.str ""
  | JsValue.str s => JsValue.str s
  | JsValue.num n => if n = 0 then JsValue.str "" else JsValue.num n
  | JsValue.object text => JsValue.object text

/-- The conversion `String(value)`. -/
def JsValue.toJsString : JsValue → String
  | JsValue.undefined => "undefined"
  | JsValue.str s => s
  | JsValue.num n => toString n
  | JsValue.object text => text

/-- The replacement of every double quote by two, on characters. -/
def doubleQuoteChars : List Char → List Char
  | [] => []
  | c :: cs => if c = '"' then '"' :: '"' :: doubleQuoteChars cs else c :: doubleQuoteChars cs

/-- The call `value.replace(/"/g, '""')`. -/
def replaceQuotes (value : String) : String :=
  String.mk (doubleQuoteChars value.data)

/-- The callback that renders one cell in `exportReports`. -/
def csvCell (cell : JsValue) : String :=
  let value := (cell.orEmpty).toJsString
  if includes value "," || includes value "\"" then
    "\"" ++ replaceQuotes value ++ "\""
  else
    value

/-- The constant `headers`: `Object.keys(exportData[0] || {})`. -/
def csvHeaders (exportData : List ExportRow) : List String :=
  match exportData with
  | [] => []
  | row :: _ => row.map Prod.fst

/-- One data line: the cells of the row under the headers, joined by
commas. -/
def csvLine (headers : List String) (row : ExportRow) : String :=
  String.intercalate "," (headers.map (fun header => csvCell (rowValue row header)))

/-- The constant `csvContent`: the header line and the data lines, joined by
line breaks. -/
def csvContent (exportData : List ExportRow) : String :=
  String.intercalate "\n"
    (String.intercalate "," (csvHeaders exportData)
      :: exportData.map (csvLine (csvHeaders exportData)))

/-- The sentiment enumeration of the response schema and of the data
model. -/
def sentimentEnumeration : List String :=
  ["urgent", "concerned", "neutral", "positive"]

/-- The doubling rule in the words of the specification: a text that holds a
comma or a double quote is written with every double quote doubled, inside
one pair of double quotes; any other text is written unchanged. -/
def doublingRule (text : String) : String :=
  if ',' ∈ text.data ∨ '"' ∈ text.data then
    String.mk ('"' :: (text.data.map (fun c => if c = '"' then ['"', '"'] else [c])).flatten
      ++ ['"'])
  else
    text

/-! ## Admin dashboard: the exported text (`exportReports`) -/

/-- The function `exportReports` up to the text it hands to the `Blob`: it
returns early, with no text, when no report passes the filter. -/
def exportReports (formatDate : String → Except JsError String)
    (inheritedText : String → Option String) (reports : List Report) :
    Except JsError (Option String) :=
  match exportData formatDate inheritedText reports with
  | Except.error e => Except.error e
  | Except.ok rows => if rows.length = 0 then Except.ok none else Except.ok (some (csvContent rows))

/-- The keys of the object literal built by the `.map` callback of
`exportReports`, in source order. -/
def exportKeys : List String :=
  [ "Title", "Description", "Location", "Category", "Status", "Upvotes", "Comments",
    "Sentiment", "Reported By", "Date", "Photo URLs" ]

/-! ## Concurrent toggles -/

/-- Two ToggleUpvote updates computed from the same snapshot `r`, the first
user's write applied by the store before the second user's. -/
def toggleBothFromSnapshot (page1 page2 : Page) (user1 user2 : Option User) (r : Report) :
    Except JsError Report :=
  match upvoteMutationOn page1 user1 r with
  | Except.error e => Except.error e
  | Except.ok call1 =>
    match upvoteMutationOn page2 user2 r with
    | Except.error e => Except.error e
    | Except.ok call2 => Except.ok (applyCall (applyCall r call1) call2)

/-! ## Sample data and specification-side predicates -/

/-- A stored report with the given identifier and every optional field
absent. -/
def blankReport (id : String) : Report :=
  { id := id
    created_date := some "2024-05-01T10:00:00Z"
    title := none
    description := none
    location := none
    category := none
    status := none
    sentiment := none
    upvotes := none
    upvote_count := none
    comment_count := none
    photo_urls := none
    created_by := none }

/-- Two clicks of the same user on the same page with no other write in
between: the second toggle starts from the report the first one stored. -/
def toggleTwice (page : Page) (user : Option User) (r : Report) : Except JsError Report :=
  match toggleAndStore page user r with
  | Except.ok r1 => toggleAndStore page user r1
  | Except.error e => Except.error e

/-- The filter predicate in the words of the specification: the location
filter is empty or the lower-cased location of the report contains the
lower-cased filter as a substring, the category filter is "all" or equals the
category of the report, and likewise for the status. -/
def matchesFilters (toLowerCase : String → String) (filters : Filters) (r : Report) : Prop :=
  (filters.location = "" ∨
      ∃ loc ∈ r.location, (toLowerCase filters.location).data <:+: (toLowerCase loc).data)
    ∧ (filters.category = "all" ∨ r.category = some filters.category)
    ∧ (filters.status = "all" ∨ r.status = some filters.status)

instance matchesFilters.decidable (toLowerCase : String → String) (filters : Filters)
    (r : Report) : Decidable (matchesFilters toLowerCase filters r) := by
  unfold matchesFilters
  infer_instance

/-- The parts of a text between the occurrences of a separator character,
that is `text.split(sep)`; `line` holds the part read so far. -/
def splitOnChar (sep : Char) : List Char → List Char → List (List Char)
  | line, [] => [line]
  | line, c :: cs =>
    if c = sep then line :: splitOnChar sep [] cs else splitOnChar sep (line ++ [c]) cs

/-- The lines of a text: its parts between line breaks. -/
def splitLines (text : String) : List (List Char) :=
  splitOnChar '\n' [] text.data

/-- Where a reader of a CSV line stands: at the start of a cell, inside an
unquoted cell, inside a quoted cell, or just after a double quote met inside a
quoted cell. -/
inductive CsvState where
  | cellStart
  | plain
  | quoted
  | quoteSeen
deriving DecidableEq, Repr

/-- A reader of one CSV line by the doubling rule: a cell that starts with a
double quote runs to its closing quote, two double quotes inside it stand for
one, and a comma outside quotes ends a cell. `cell` holds the text of the cell
read so far. -/
def readCsv : CsvState → List Char → List Char → List (List Char)
  | _, cell, [] => [cell]
  | CsvState.cellStart, cell, c :: cs =>
    if c = '"' then readCsv CsvState.quoted cell cs
    else if c = ',' then cell :: readCsv CsvState.cellStart [] cs
    else readCsv CsvState.plain (cell ++ [c]) cs
  | CsvState.plain, cell, c :: cs =>
    if c = ',' then cell :: readCsv CsvState.cellStart [] cs
    else readCsv CsvState.plain (cell ++ [c]) cs
  | CsvState.quoted, cell, c :: cs =>
    if c = '"' then readCsv CsvState.quoteSeen cell cs
    else readCsv CsvState.quoted (cell ++ [c]) cs
  | CsvState.quoteSeen, cell, c :: cs =>
    if c = '"' then readCsv CsvState.quoted (cell ++ ['"']) cs
    else if c = ',' then cell :: readCsv CsvState.cellStart [] cs
    else readCsv CsvState.plain (cell ++ [c]) cs

/-- The cells of a CSV line, quoted cells unquoted. -/
def readCsvLine (line : List Char) : List (List Char) :=
  readCsv CsvState.cellStart [] line

/-- A text field that is absent or holds no line break. -/
def fieldHasNoLineBreak (field : Option String) : Prop :=
  ∀ text ∈ field, '\n' ∉ text.data

instance fieldHasNoLineBreak.decidable (field : Option String) :
    Decidable (fieldHasNoLineBreak field) := by
  unfold fieldHasNoLineBreak
  infer_instance

/-- Whether the date cell of a report can be written: the report has a
`created_date` and the date library formats it. -/
def dateFormats (formatDate : String → Except JsError String) (r : Report) : Bool :=
  match r.created_date with
  | none => false
  | some created =>
    match formatDate created with
    | Except.ok _ => true
    | Except.error _ => false

/-- The formatted date of a report holds no line break (when there is
one). -/
def dateHasNoLineBreak (formatDate : String → Except JsError String) (r : Report) : Prop :=
  match r.created_date with
  | none => True
  | some created =>
    match formatDate created with
    | Except.ok date => '\n' ∉ date.data
    | Except.error _ => True

instance dateHasNoLineBreak.decidable (formatDate : String → Except JsError String)
    (r : Report) : Decidable (dateHasNoLineBreak formatDate r) := by
  unfold dateHasNoLineBreak
  split
  · infer_instance
  · split <;> infer_instance

/-- A report none of whose exported texts holds a line break: title,
description, location, sentiment, author, photo URLs, the formatted date, and
the engine's text of the member of `Object.prototype` that an unlisted
category names, if it names one. -/
def hasNoLineBreak (formatDate : String → Except JsError String)
    (inheritedText : String → Option String) (r : Report) : Prop :=
  fieldHasNoLineBreak r.title ∧ fieldHasNoLineBreak r.description
    ∧ fieldHasNoLineBreak r.location ∧ fieldHasNoLineBreak r.sentiment
    ∧ fieldHasNoLineBreak r.created_by
    ∧ (∀ urls ∈ r.photo_urls, ∀ url ∈ urls, '\n' ∉ url.data)
    ∧ dateHasNoLineBreak formatDate r
    ∧ (∀ c ∈ r.category, ∀ text ∈ inheritedText c, '\n' ∉ text.data)

instance hasNoLineBreak.decidable (formatDate : String → Except JsError String)
    (inheritedText : String → Option String) (r : Report) :
    Decidable (hasNoLineBreak formatDate inheritedText r) := by
  unfold hasNoLineBreak
  infer_instance

/-- Texts joined by a separator, on characters. -/
def joinChars (sep : List Char) : List (List Char) → List Char
  | [] => []
  | [a] => a
  | a :: b :: rest => a ++ sep ++ joinChars sep (b :: rest)

/-! ## Theorems: ToggleUpvote -/

theorem mem_newUpvotes_self (r : Report) (e : String) :
    e ∈ newUpvotes r e ↔ e ∉ upvotesOrEmpty r := by
  unfold newUpvotes hasUpvoted upvotesOrEmpty
  cases h : r.upvotes with
  | none => simp
  | some ups =>
    by_cases hm : e ∈ ups
    · simp [hm]
    · simp [hm]

theorem mem_newUpvotes_other (r : Report) (e v : String) (hv : v ≠ e) :
    v ∈ newUpvotes r e ↔ v ∈ upvotesOrEmpty r := by
  unfold newUpvotes hasUpvoted upvotesOrEmpty
  cases h : r.upvotes with
  | none => simp [hv]
  | some ups =>
    by_cases hm : e ∈ ups
    · simp [hm, hv]
    · simp [hm, hv]

theorem nodup_newUpvotes (r : Report) (e : String) (h : (upvotesOrEmpty r).Nodup) :
    (newUpvotes r e).Nodup := by
  unfold newUpvotes hasUpvoted
  unfold upvotesOrEmpty at h ⊢
  cases hu : r.upvotes with
  | none => simp
  | some ups =>
    rw [hu] at h
    by_cases hm : e ∈ ups
    · simpa [hm] using h.filter _
    · have hc : ups.contains e = false := by simpa using hm
      simp only [hc, Bool.false_eq_true, if_false]
      exact List.Nodup.append h (List.nodup_singleton e) (by simpa using hm)

theorem upvoteMutationOn_some (page : Page) (u : User) (r : Report) :
    upvoteMutationOn page (some u) r = Except.ok (upvoteUpdate r u.email) := by
  cases page <;> rfl

/-- C1 (counterexample). On a snapshot whose upvotes hold a repeated entry,
the update written for another user carries `upvote_count = 3` while the
upvotes written in the same update hold only 2 distinct identifiers. -/
theorem upvote_count_counts_repeated_entries :
    Feed.upvoteMutation (some { email := "b@civic.org", role := "citizen" })
        { blankReport "r1" with upvotes := some ["a@civic.org", "a@civic.org"] }
      = Except.ok (StoreCall.update "r1"
          { PartialFields.empty with
            upvotes := some ["a@civic.org", "a@civic.org", "b@civic.org"]
            upvote_count := some 3 })
    ∧ distinctCount ["a@civic.org", "a@civic.org", "b@civic.org"] = 2
    ∧ (3 : Int) ≠ (distinctCount ["a@civic.org", "a@civic.org", "b@civic.org"] : Int) := by
  decide

theorem length_eq_distinctCount_iff (l : List String) :
    l.length = distinctCount l ↔ l.Nodup := by
  unfold distinctCount
  constructor
  · intro h
    exact List.dedup_eq_self.1 ((List.dedup_sublist l).eq_of_length h.symm)
  · intro h
    rw [List.Nodup.dedup h]

theorem nodup_newUpvotes_iff (r : Report) (e : String) :
    (newUpvotes r e).Nodup ↔ ((upvotesOrEmpty r).filter (fun v => v != e)).Nodup := by
  unfold newUpvotes hasUpvoted upvotesOrEmpty
  cases hu : r.upvotes with
  | none => simp
  | some ups =>
    by_cases hm : e ∈ ups
    · simp [hm]
    · have hc : ups.contains e = false := by simpa using hm
      have hfilter : ups.filter (fun v => v != e) = ups := by
        apply List.filter_eq_self.2
        intro v hv
        have hne : v ≠ e := fun h => hm (h ▸ hv)
        simpa using hne
      simp only [hc, Bool.false_eq_true, if_false]
      rw [hfilter]
      constructor
      · intro h
        exact (List.nodup_append.1 h).1
      · intro h
        exact List.Nodup.append h (List.nodup_singleton e) (by simpa using hm)

/-- C1 (amended). For every report snapshot and every authenticated user, on
each of the three pages the update written by ToggleUpvote carries the new
upvotes together with an `upvote_count` that is the length of that list; and
that length is the number of distinct user identifiers in the list exactly
when the snapshot repeats no user other than the acting one (its upvotes may
be missing, and repeats of the acting user are removed by the toggle). -/
theorem upvote_count_eq_distinct_iff (page : Page) (u : User) (r : Report) :
    upvoteMutationOn page (some u) r
      = Except.ok (StoreCall.update r.id
          { PartialFields.empty with
            upvotes := some (newUpvotes r u.email)
            upvote_count := some ((newUpvotes r u.email).length : Int) })
    ∧ ((newUpvotes r u.email).length = distinctCount (newUpvotes r u.email)
        ↔ ((upvotesOrEmpty r).filter (fun v => v != u.email)).Nodup) := by
  refine ⟨upvoteMutationOn_some page u r, ?_⟩
  rw [length_eq_distinctCount_iff, nodup_newUpvotes_iff]

/-- C1 (witness). A snapshot that holds the acting user twice and another
user once: the toggle writes the other user alone, with a count of 1, the
number of distinct identifiers written. -/
theorem upvote_count_eq_distinct_iff_witness :
    upvoteMutationOn Page.reportDetails (some { email := "a@civic.org", role := "citizen" })
        { blankReport "r1" with upvotes := some ["a@civic.org", "b@civic.org", "a@civic.org"] }
      = Except.ok (StoreCall.update "r1"
          { PartialFields.empty with
            upvotes := some ["b@civic.org"]
            upvote_count := some 1 })
    ∧ (newUpvotes
          { blankReport "r1" with upvotes := some ["a@civic.org", "b@civic.org", "a@civic.org"] }
          "a@civic.org").length
      = distinctCount
          (newUpvotes
            { blankReport "r1" with
              upvotes := some ["a@civic.org", "b@civic.org", "a@civic.org"] }
            "a@civic.org")
    ∧ distinctCount ["b@civic.org"] = 1 :=
  ⟨(upvote_count_eq_distinct_iff Page.reportDetails
      { email := "a@civic.org", role := "citizen" }
      { blankReport "r1" with
        upvotes := some ["a@civic.org", "b@civic.org", "a@civic.org"] }).1.trans (by decide),
    (upvote_count_eq_distinct_iff Page.reportDetails
      { email := "a@civic.org", role := "citizen" }
      { blankReport "r1" with
        upvotes := some ["a@civic.org", "b@civic.org", "a@civic.org"] }).2.2 (by decide),
    by decide⟩

/-- C2. For every report snapshot and every authenticated user, on each of
the three pages the upvotes written by ToggleUpvote do not contain the user
when the snapshot did and contain the user when it did not, and any other
user is in the written upvotes exactly when that user was in the snapshot. -/
theorem toggle_flips_only_acting_user (page : Page) (u : User) (r : Report) :
    upvoteMutationOn page (some u) r
      = Except.ok (StoreCall.update r.id
          { PartialFields.empty with
            upvotes := some (newUpvotes r u.email)
            upvote_count := some ((newUpvotes r u.email).length : Int) })
    ∧ (u.email ∈ upvotesOrEmpty r → u.email ∉ newUpvotes r u.email)
    ∧ (u.email ∉ upvotesOrEmpty r → u.email ∈ newUpvotes r u.email)
    ∧ ∀ v : String, v ≠ u.email → (v ∈ newUpvotes r u.email ↔ v ∈ upvotesOrEmpty r) := by
  refine ⟨upvoteMutationOn_some page u r, ?_, ?_, ?_⟩
  · intro hin hnew
    exact ((mem_newUpvotes_self r u.email).1 hnew) hin
  · intro hnot
    exact (mem_newUpvotes_self r u.email).2 hnot
  · intro v hv
    exact mem_newUpvotes_other r u.email v hv

/-- C2 (witness). A user who has upvoted is removed and the other upvoter
stays. -/
theorem toggle_flips_only_acting_user_witness :
    upvoteMutationOn Page.myReports (some { email := "a@civic.org", role := "citizen" })
        { blankReport "r1" with upvotes := some ["a@civic.org", "c@civic.org"] }
      = Except.ok (StoreCall.update "r1"
          { PartialFields.empty with upvotes := some ["c@civic.org"], upvote_count := some 1 }) :=
  (toggle_flips_only_acting_user Page.myReports { email := "a@civic.org", role := "citizen" }
    { blankReport "r1" with upvotes := some ["a@civic.org", "c@civic.org"] }).1

/-- C3. For every report snapshot and every authenticated user, two
ToggleUpvote clicks in a row on a page, the second one starting from the
report stored by the first, succeed and leave upvotes that are equal as a set
to the upvotes of the original snapshot. -/
theorem toggle_twice_restores_upvoters (page : Page) (u : User) (r : Report) :
    ∃ r2 : Report, toggleTwice page (some u) r = Except.ok r2
      ∧ (upvotesOrEmpty r2).toFinset = (upvotesOrEmpty r).toFinset := by
  have h1 : toggleAndStore page (some u) r
      = Except.ok (applyCall r (upvoteUpdate r u.email)) := by
    unfold toggleAndStore
    rw [upvoteMutationOn_some]
  have h2 : toggleAndStore page (some u) (applyCall r (upvoteUpdate r u.email))
      = Except.ok (applyCall (applyCall r (upvoteUpdate r u.email))
          (upvoteUpdate (applyCall r (upvoteUpdate r u.email)) u.email)) := by
    unfold toggleAndStore
    rw [upvoteMutationOn_some]
  refine ⟨_, by unfold toggleTwice; rw [h1]; exact h2, ?_⟩
  have e1 : upvotesOrEmpty (applyCall r (upvoteUpdate r u.email)) = newUpvotes r u.email := rfl
  have e2 : upvotesOrEmpty (applyCall (applyCall r (upvoteUpdate r u.email))
      (upvoteUpdate (applyCall r (upvoteUpdate r u.email)) u.email))
      = newUpvotes (applyCall r (upvoteUpdate r u.email)) u.email := rfl
  rw [e2]
  ext v
  simp only [List.mem_toFinset]
  by_cases hv : v = u.email
  · subst hv
    rw [mem_newUpvotes_self, e1, mem_newUpvotes_self]
    exact not_not
  · rw [mem_newUpvotes_other _ _ _ hv, e1, mem_newUpvotes_other _ _ _ hv]

/-! ## Theorems: dashboard counts -/

theorem countStatus_cons (r : Report) (rs : List Report) (s : String) :
    countStatus (r :: rs) s = (if r.status = some s then 1 else 0) + countStatus rs s := by
  unfold countStatus
  by_cases h : r.status = some s
  · simp [h, Nat.add_comm]
  · simp [h]

theorem countStatus_sum_of_enumeration (reports : List Report)
    (h : ∀ r ∈ reports, ∃ s ∈ statusEnumeration, r.status = some s) :
    countStatus reports "reported" + countStatus reports "under_review"
      + countStatus reports "action_initiated" + countStatus reports "resolved"
      = reports.length := by
  induction reports with
  | nil => rfl
  | cons r rs ih =>
    have ih1 := ih (fun x hx => h x (List.mem_cons_of_mem r hx))
    obtain ⟨s, hs, hr⟩ := h r (List.mem_cons_self r rs)
    simp only [countStatus_cons, List.length_cons, hr]
    simp only [statusEnumeration, List.mem_cons, List.mem_singleton, List.not_mem_nil,
      or_false] at hs
    rcases hs with hs | hs | hs | hs <;> subst hs <;> simp <;> omega

/-- C4 (counterexample). A report whose status is outside the four values,
here the one the store holds after the dashboard's status mutation was given
"closed", is counted in `total` and in none of the four buckets: the buckets
sum to 0 and `total` is 1. -/
theorem statusCounts_misses_other_status :
    applyCall { blankReport "r1" with status := some "reported" }
        (AdminDashboard.updateStatusMutation "r1" "closed")
      = { blankReport "r1" with status := some "closed" }
    ∧ AdminDashboard.statusCounts [{ blankReport "r1" with status := some "closed" }]
      = { total := 1, reported := 0, under_review := 0, action_initiated := 0, resolved := 0 }
    ∧ (AdminDashboard.statusCounts [{ blankReport "r1" with status := some "closed" }]).reported
        + (AdminDashboard.statusCounts
            [{ blankReport "r1" with status := some "closed" }]).under_review
        + (AdminDashboard.statusCounts
            [{ blankReport "r1" with status := some "closed" }]).action_initiated
        + (AdminDashboard.statusCounts [{ blankReport "r1" with status := some "closed" }]).resolved
      ≠ (AdminDashboard.statusCounts [{ blankReport "r1" with status := some "closed" }]).total := by
  decide

/-- C4 (amended). For every collection of reports whose statuses all belong
to the status enumeration, the empty collection included, the four buckets of
the admin dashboard sum to `total`, `total` is the number of reports, the
buckets of the My Reports page sum to the number of reports too, and every
report is counted by exactly one of the four buckets. -/
theorem statusCounts_sum_eq_total (reports : List Report)
    (h : ∀ r ∈ reports, ∃ s ∈ statusEnumeration, r.status = some s) :
    (AdminDashboard.statusCounts reports).reported
        + (AdminDashboard.statusCounts reports).under_review
        + (AdminDashboard.statusCounts reports).action_initiated
        + (AdminDashboard.statusCounts reports).resolved
      = (AdminDashboard.statusCounts reports).total
    ∧ (AdminDashboard.statusCounts reports).total = reports.length
    ∧ (MyReports.statusCounts reports).reported + (MyReports.statusCounts reports).under_review
        + (MyReports.statusCounts reports).action_initiated
        + (MyReports.statusCounts reports).resolved
      = reports.length
    ∧ ∀ r ∈ reports,
        (statusEnumeration.filter (fun s => decide (r.status = some s))).length = 1 := by
  refine ⟨countStatus_sum_of_enumeration reports h, rfl,
    countStatus_sum_of_enumeration reports h, ?_⟩
  intro r hr
  obtain ⟨s, hs, hrs⟩ := h r hr
  simp only [statusEnumeration, List.mem_cons, List.mem_singleton, List.not_mem_nil,
    or_false] at hs
  rcases hs with hs | hs | hs | hs <;> subst hs <;> rw [hrs] <;> decide

/-- C4 (witness). Three reports, two of them resolved, and the empty
collection. -/
theorem statusCounts_sum_eq_total_witness :
    AdminDashboard.statusCounts
        [ { blankReport "r1" with status := some "resolved" },
          { blankReport "r2" with status := some "reported" },
          { blankReport "r3" with status := some "resolved" } ]
      = { total := 3, reported := 1, under_review := 0, action_initiated := 0, resolved := 2 }
    ∧ (AdminDashboard.statusCounts
          [ { blankReport "r1" with status := some "resolved" },
            { blankReport "r2" with status := some "reported" },
            { blankReport "r3" with status := some "resolved" } ]).total = 3
    ∧ (AdminDashboard.statusCounts []).total = 0 :=
  ⟨by decide,
    (statusCounts_sum_eq_total
      [ { blankReport "r1" with status := some "resolved" },
        { blankReport "r2" with status := some "reported" },
        { blankReport "r3" with status := some "resolved" } ] (by decide)).2.1,
    (statusCounts_sum_eq_total [] (by decide)).2.1⟩

/-! ## Theorems: feed filtering -/

theorem isSubstring_iff (search text : List Char) :
    isSubstring search text = true ↔ search <:+: text := by
  induction text with
  | nil => simp [isSubstring, List.infix_nil]
  | cons c cs ih =>
    simp only [isSubstring, Bool.or_eq_true, ih, List.infix_cons_iff,
      List.isPrefixOf_iff_prefix]

theorem filterArray_of_total {α : Type} (callback : α → Except JsError Bool) (p : α → Bool)
    (l : List α) (h : ∀ x ∈ l, callback x = Except.ok (p x)) :
    filterArray callback l = Except.ok (l.filter p) := by
  induction l with
  | nil => rfl
  | cons x xs ih =>
    have hx := h x (List.mem_cons_self x xs)
    have hxs := ih (fun y hy => h y (List.mem_cons_of_mem x hy))
    unfold filterArray
    rw [hx, hxs]
    cases hp : p x <;> simp [List.filter, hp]

theorem filterCallback_eq_matchesFilters (toLowerCase : String → String) (filters : Filters)
    (r : Report) (h : filters.location = "" ∨ r.location ≠ none) :
    filterCallback toLowerCase filters r
      = Except.ok (decide (matchesFilters toLowerCase filters r)) := by
  by_cases hl : filters.location = ""
  · have hlm : locationMatch toLowerCase filters r = Except.ok true := by
      simp [locationMatch, hl]
    unfold filterCallback
    rw [hlm]
    show Except.ok _ = Except.ok _
    apply congrArg
    rw [Bool.eq_iff_iff]
    simp [matchesFilters, hl, categoryMatch, statusMatch]
  · obtain ⟨loc, hloc⟩ := Option.ne_none_iff_exists'.1 (h.resolve_left hl)
    have hlm : locationMatch toLowerCase filters r
        = Except.ok (includes (toLowerCase loc) (toLowerCase filters.location)) := by
      simp [locationMatch, hl, hloc]
    unfold filterCallback
    rw [hlm]
    show Except.ok _ = Except.ok _
    apply congrArg
    rw [Bool.eq_iff_iff]
    simp [matchesFilters, hl, hloc, includes, isSubstring_iff, categoryMatch, statusMatch,
      and_assoc]

theorem filteredReports_initial (toLowerCase : String → String) (reports : List Report) :
    filteredReports toLowerCase reports Feed.initialFilters = Except.ok reports := by
  unfold filteredReports
  rw [filterArray_of_total _ (fun _ => true) reports]
  · simp
  · intro r _
    simp [filterCallback, locationMatch, categoryMatch, statusMatch, Feed.initialFilters]

/-- C5 (counterexample). With the location filter "x", a list holding one
report that has no location is not filtered at all: the callback throws a
`TypeError` when it reads `report.location.toLowerCase`. -/
theorem filteredReports_throws_without_location :
    filteredReports toLowerCaseAscii [blankReport "r1"]
        { location := "x", category := "all", status := "all" }
      = Except.error
          (JsError.typeError "Cannot read properties of undefined (reading 'toLowerCase')") := by
  decide

/-- C5 (amended). For every lower-casing function, every filter and every
list of reports that all have a location (or any list when the location
filter is empty), `filteredReports` is exactly the sub-list, in input order,
of the reports that satisfy the three predicates of the specification, all
three ANDed. -/
theorem filteredReports_eq_filter (toLowerCase : String → String) (reports : List Report)
    (filters : Filters) (h : filters.location = "" ∨ ∀ r ∈ reports, r.location ≠ none) :
    filteredReports toLowerCase reports filters
      = Except.ok (reports.filter (fun r => decide (matchesFilters toLowerCase filters r))) := by
  unfold filteredReports
  apply filterArray_of_total
  intro r hr
  apply filterCallback_eq_matchesFilters
  rcases h with h | h
  · exact Or.inl h
  · exact Or.inr (h r hr)

/-- C5 (witness). The location filter "Main St" keeps the report located at
"123 Main Street" and drops the one located at "Oak Ave". -/
theorem filteredReports_eq_filter_witness :
    filteredReports toLowerCaseAscii
        [ { blankReport "r1" with location := some "123 Main Street" },
          { blankReport "r2" with location := some "Oak Ave" } ]
        { location := "Main St", category := "all", status := "all" }
      = Except.ok [ { blankReport "r1" with location := some "123 Main Street" } ] :=
  (filteredReports_eq_filter toLowerCaseAscii
      [ { blankReport "r1" with location := some "123 Main Street" },
        { blankReport "r2" with location := some "Oak Ave" } ]
      { location := "Main St", category := "all", status := "all" }
      (Or.inr (by decide))).trans (by decide)

/-- C6. For every lower-casing function and every list of reports, whatever
their fields hold and also when a report has no location, the filter with
location "", category "all" and status "all" (the initial filter state)
returns the input list unchanged. -/
theorem filteredReports_wildcards (toLowerCase : String → String) (reports : List Report) :
    filteredReports toLowerCase reports { location := "", category := "all", status := "all" }
      = Except.ok reports
    ∧ filteredReports toLowerCase reports Feed.initialFilters = Except.ok reports :=
  ⟨filteredReports_initial toLowerCase reports, filteredReports_initial toLowerCase reports⟩

/-! ## Theorems: feed ranking -/

theorem feedTopReports_initialFilters (toLowerCase : String → String) (l : List Report) :
    feedTopReports toLowerCase l Feed.initialFilters = Except.ok (topReports l) := by
  unfold feedTopReports
  rw [filteredReports_initial toLowerCase l]

theorem sortInsert_perm {α : Type} (f : α → α → Int) (x : α) (l : List α) :
    (sortInsert f x l).Perm (x :: l) := by
  induction l with
  | nil => exact List.Perm.refl _
  | cons y ys ih =>
    unfold sortInsert
    by_cases h : f x y ≤ 0
    · rw [if_pos h]
    · rw [if_neg h]
      exact (List.Perm.cons y ih).trans (List.Perm.swap x y ys)

theorem sort_perm {α : Type} (f : α → α → Int) (l : List α) : (sort f l).Perm l := by
  induction l with
  | nil => exact List.Perm.refl _
  | cons x xs ih =>
    unfold sort
    exact (sortInsert_perm f x (sort f xs)).trans (List.Perm.cons x ih)

theorem sortInsert_descending (x : Report) (l : List Report)
    (h : l.Pairwise (fun a b => upvoteCountOrZero b ≤ upvoteCountOrZero a)) :
    (sortInsert byUpvotesDesc x l).Pairwise
      (fun a b => upvoteCountOrZero b ≤ upvoteCountOrZero a) := by
  induction l with
  | nil => simp [sortInsert]
  | cons y ys ih =>
    unfold sortInsert
    by_cases hxy : byUpvotesDesc x y ≤ 0
    · rw [if_pos hxy]
      have hyx : upvoteCountOrZero y ≤ upvoteCountOrZero x := by
        unfold byUpvotesDesc at hxy
        omega
      refine List.Pairwise.cons ?_ h
      intro b hb
      rcases List.mem_cons.1 hb with hb | hb
      · rw [hb]
        exact hyx
      · exact le_trans ((List.pairwise_cons.1 h).1 b hb) hyx
    · rw [if_neg hxy]
      have hlt : upvoteCountOrZero x ≤ upvoteCountOrZero y := by
        unfold byUpvotesDesc at hxy
        omega
      refine List.Pairwise.cons ?_ (ih (List.pairwise_cons.1 h).2)
      intro b hb
      rcases List.mem_cons.1 ((sortInsert_perm byUpvotesDesc x ys).subset hb) with hb | hb
      · rw [hb]
        exact hlt
      · exact (List.pairwise_cons.1 h).1 b hb

theorem sort_descending (l : List Report) :
    (sort byUpvotesDesc l).Pairwise (fun a b => upvoteCountOrZero b ≤ upvoteCountOrZero a) := by
  induction l with
  | nil => simp [sort]
  | cons x xs ih =>
    unfold sort
    exact sortInsert_descending x _ ih

theorem sortInsert_filter_count (c : Int) (x : Report) (l : List Report) :
    (sortInsert byUpvotesDesc x l).filter (fun r => decide (upvoteCountOrZero r = c))
      = (x :: l).filter (fun r => decide (upvoteCountOrZero r = c)) := by
  induction l with
  | nil => rfl
  | cons y ys ih =>
    unfold sortInsert
    by_cases hxy : byUpvotesDesc x y ≤ 0
    · rw [if_pos hxy]
    · rw [if_neg hxy]
      have hlt : upvoteCountOrZero x < upvoteCountOrZero y := by
        unfold byUpvotesDesc at hxy
        omega
      rw [List.filter_cons, ih]
      by_cases hx : upvoteCountOrZero x = c
      · have hy : ¬ upvoteCountOrZero y = c := by omega
        simp [List.filter_cons, hx, hy]
      · simp [List.filter_cons, hx]

theorem sort_filter_count (c : Int) (l : List Report) :
    (sort byUpvotesDesc l).filter (fun r => decide (upvoteCountOrZero r = c))
      = l.filter (fun r => decide (upvoteCountOrZero r = c)) := by
  induction l with
  | nil => rfl
  | cons x xs ih =>
    unfold sort
    rw [sortInsert_filter_count, List.filter_cons, List.filter_cons, ih]

theorem sort_strictly_descending (l : List Report)
    (h : (l.map upvoteCountOrZero).Nodup) :
    (sort byUpvotesDesc l).Pairwise (fun a b => upvoteCountOrZero b < upvoteCountOrZero a) := by
  have hnd : ((sort byUpvotesDesc l).map upvoteCountOrZero).Nodup :=
    (List.Perm.nodup_iff ((sort_perm byUpvotesDesc l).map upvoteCountOrZero)).2 h
  have hne : (sort byUpvotesDesc l).Pairwise
      (fun a b => upvoteCountOrZero a ≠ upvoteCountOrZero b) :=
    (List.pairwise_map.1 hnd)
  exact ((sort_descending l).and hne).imp (fun hab => lt_of_le_of_ne hab.1 (Ne.symm hab.2))

/-- C7. For every list of reports with pairwise distinct upvote counts (a
missing count counting as 0), `topReports` has exactly `min 3 n` reports, all
taken from the input, in strictly descending order of upvote count, and every
input report left out has a lower count than each report returned. While the
filters are at their initial values, when the page shows the list, it is
computed from the whole list of reports. -/
theorem topReports_three_highest (toLowerCase : String → String) (l : List Report)
    (h : (l.map upvoteCountOrZero).Nodup) :
    feedTopReports toLowerCase l Feed.initialFilters = Except.ok (topReports l)
    ∧ (topReports l).length = min 3 l.length
    ∧ (∀ t ∈ topReports l, t ∈ l)
    ∧ (topReports l).Pairwise (fun a b => upvoteCountOrZero b < upvoteCountOrZero a)
    ∧ ∀ r ∈ l, r ∉ topReports l →
        ∀ t ∈ topReports l, upvoteCountOrZero r < upvoteCountOrZero t := by
  have hs := sort_strictly_descending l h
  have hp := sort_perm byUpvotesDesc l
  refine ⟨feedTopReports_initialFilters toLowerCase l, ?_, ?_, ?_, ?_⟩
  · unfold topReports
    rw [List.length_take, hp.length_eq]
  · intro t ht
    exact hp.subset ((List.take_sublist 3 _).subset ht)
  · exact hs.sublist (List.take_sublist 3 _)
  · intro r hr hnot t ht
    have hmem : r ∈ List.take 3 (sort byUpvotesDesc l) ++ List.drop 3 (sort byUpvotesDesc l) := by
      rw [List.take_append_drop]
      exact hp.symm.subset hr
    rcases List.mem_append.1 hmem with hin | hin
    · exact absurd hin hnot
    · rw [← List.take_append_drop 3 (sort byUpvotesDesc l)] at hs
      exact (List.pairwise_append.1 hs).2.2 t ht r hin

/-- C7 (witness). Five reports with the counts 2, 9, none, 7 and 5 give the
three reports with 9, 7 and 5 upvotes, highest first. -/
theorem topReports_three_highest_witness :
    topReports
        [ { blankReport "r1" with upvote_count := some 2 },
          { blankReport "r2" with upvote_count := some 9 },
          blankReport "r3",
          { blankReport "r4" with upvote_count := some 7 },
          { blankReport "r5" with upvote_count := some 5 } ]
      = [ { blankReport "r2" with upvote_count := some 9 },
          { blankReport "r4" with upvote_count := some 7 },
          { blankReport "r5" with upvote_count := some 5 } ]
    ∧ (topReports
        [ { blankReport "r1" with upvote_count := some 2 },
          { blankReport "r2" with upvote_count := some 9 },
          blankReport "r3",
          { blankReport "r4" with upvote_count := some 7 },
          { blankReport "r5" with upvote_count := some 5 } ]).length = min 3 5 :=
  ⟨by decide,
    (topReports_three_highest toLowerCaseAscii
      [ { blankReport "r1" with upvote_count := some 2 },
        { blankReport "r2" with upvote_count := some 9 },
        blankReport "r3",
        { blankReport "r4" with upvote_count := some 7 },
        { blankReport "r5" with upvote_count := some 5 } ] (by decide)).2.1⟩

/-- C8. For every list of reports and every upvote count `c` (a missing count
counting as 0), the reports with count `c` that `topReports` returns are, in
the order returned, an initial segment of the input reports with count `c` in
input order: tied reports keep their relative input order, and the tied
reports selected at the cut-off are the ones earliest in the input. Of four
reports tied at 4 upvotes behind one with 9, the first two are selected. -/
theorem topReports_stable (toLowerCase : String → String) (l : List Report) (c : Int) :
    feedTopReports toLowerCase l Feed.initialFilters = Except.ok (topReports l)
    ∧ (topReports l).filter (fun r => decide (upvoteCountOrZero r = c))
      <+: l.filter (fun r => decide (upvoteCountOrZero r = c))
    ∧ topReports
        [ { blankReport "r1" with upvote_count := some 4 },
          { blankReport "r2" with upvote_count := some 4 },
          { blankReport "r3" with upvote_count := some 9 },
          { blankReport "r4" with upvote_count := some 4 },
          { blankReport "r5" with upvote_count := some 4 } ]
      = [ { blankReport "r3" with upvote_count := some 9 },
          { blankReport "r1" with upvote_count := some 4 },
          { blankReport "r2" with upvote_count := some 4 } ] := by
  have hpre : topReports l <+: sort byUpvotesDesc l := List.take_prefix 3 _
  have hf := List.IsPrefix.filter (fun r => decide (upvoteCountOrZero r = c)) hpre
  rw [sort_filter_count] at hf
  exact ⟨feedTopReports_initialFilters toLowerCase l, hf, by decide⟩

/-! ## Theorems: export rows -/

theorem mapArray_of_total {α β : Type} (callback : α → Except JsError β) (l : List α)
    (h : ∀ x ∈ l, ∃ y, callback x = Except.ok y) :
    ∃ ys : List β, mapArray callback l = Except.ok ys
      ∧ List.Forall₂ (fun y x => callback x = Except.ok y) ys l := by
  induction l with
  | nil => exact ⟨[], rfl, List.Forall₂.nil⟩
  | cons x xs ih =>
    obtain ⟨y, hy⟩ := h x (List.mem_cons_self x xs)
    obtain ⟨ys, hys, hall⟩ := ih (fun z hz => h z (List.mem_cons_of_mem x hz))
    refine ⟨y :: ys, ?_, List.Forall₂.cons hy hall⟩
    unfold mapArray
    rw [hy, hys]

theorem isForAuthorities_iff (r : Report) :
    isForAuthorities r = true ↔ (r.status = some "reported" ∨ r.status = some "under_review") := by
  simp [isForAuthorities]

theorem dateFormats_iff (formatDate : String → Except JsError String) (r : Report) :
    dateFormats formatDate r = true
      ↔ ∃ created date, r.created_date = some created ∧ formatDate created = Except.ok date := by
  unfold dateFormats
  cases hc : r.created_date with
  | none => simp
  | some created =>
    cases hf : formatDate created with
    | error e => simp [hf]
    | ok date => simp [hf]

theorem exportRow_of_date (formatDate : String → Except JsError String)
    (inheritedText : String → Option String) (r : Report) (status created date : String)
    (hs : r.status = some status) (hc : r.created_date = some created)
    (hf : formatDate created = Except.ok date) :
    exportRow formatDate inheritedText r = Except.ok
      [ ("Title", JsValue.ofField r.title),
        ("Description", JsValue.ofField r.description),
        ("Location", JsValue.ofField r.location),
        ("Category", categoryLabel inheritedText r.category),
        ("Status", JsValue.str (replaceUnderscores status)),
        ("Upvotes", JsValue.num (countOrZero r.upvote_count)),
        ("Comments", JsValue.num (countOrZero r.comment_count)),
        ("Sentiment", JsValue.str (sentimentOrNeutral r.sentiment)),
        ("Reported By", JsValue.ofField r.created_by),
        ("Date", JsValue.str date),
        ("Photo URLs", JsValue.str (joinPhotoUrls r.photo_urls)) ] := by
  unfold exportRow
  rw [hs, hc]
  dsimp only
  rw [hf]

theorem exportRow_shape (formatDate : String → Except JsError String)
    (inheritedText : String → Option String) (r : Report) (row : ExportRow)
    (hrow : exportRow formatDate inheritedText r = Except.ok row) :
    ∃ status created date : String, r.status = some status ∧ r.created_date = some created
      ∧ formatDate created = Except.ok date
      ∧ row =
        [ ("Title", JsValue.ofField r.title),
          ("Description", JsValue.ofField r.description),
          ("Location", JsValue.ofField r.location),
          ("Category", categoryLabel inheritedText r.category),
          ("Status", JsValue.str (replaceUnderscores status)),
          ("Upvotes", JsValue.num (countOrZero r.upvote_count)),
          ("Comments", JsValue.num (countOrZero r.comment_count)),
          ("Sentiment", JsValue.str (sentimentOrNeutral r.sentiment)),
          ("Reported By", JsValue.ofField r.created_by),
          ("Date", JsValue.str date),
          ("Photo URLs", JsValue.str (joinPhotoUrls r.photo_urls)) ] := by
  cases hs : r.status with
  | none =>
    unfold exportRow at hrow
    rw [hs] at hrow
    exact Except.noConfusion hrow
  | some status =>
    cases hc : r.created_date with
    | none =>
      unfold exportRow at hrow
      rw [hs, hc] at hrow
      exact Except.noConfusion hrow
    | some created =>
      cases hf : formatDate created with
      | error e =>
        unfold exportRow at hrow
        rw [hs, hc] at hrow
        dsimp only at hrow
        rw [hf] at hrow
        exact Except.noConfusion hrow
      | ok date =>
        rw [exportRow_of_date formatDate inheritedText r status created date hs hc hf] at hrow
        exact ⟨status, created, date, rfl, rfl, hf, (Except.ok.inj hrow).symm⟩

theorem exportRow_ok_of_exported (formatDate : String → Except JsError String)
    (inheritedText : String → Option String) (r : Report)
    (hfor : isForAuthorities r = true) (hdate : dateFormats formatDate r = true) :
    ∃ row, exportRow formatDate inheritedText r = Except.ok row := by
  obtain ⟨created, date, hc, hf⟩ := (dateFormats_iff formatDate r).1 hdate
  rcases (isForAuthorities_iff r).1 hfor with hs | hs
  · exact ⟨_, exportRow_of_date formatDate inheritedText r _ created date hs hc hf⟩
  · exact ⟨_, exportRow_of_date formatDate inheritedText r _ created date hs hc hf⟩

/-- C9 (counterexample). A list of one reported report gives no row at all
when the date of the report cannot be formatted: with no `created_date`, or
with the text "not-a-date" on which the date library throws, the map callback
throws the library's `RangeError` and `exportData` has no value. -/
theorem exportData_throws_on_unformattable_date :
    exportData (fun d => Except.ok d) (fun _ => none)
        [ { blankReport "r1" with status := some "reported", created_date := none } ]
      = Except.error (JsError.rangeError "Invalid time value")
    ∧ exportData (fun _ => Except.error (JsError.rangeError "Invalid time value"))
        (fun _ => none)
        [ { blankReport "r1" with
            status := some "reported", created_date := some "not-a-date" } ]
      = Except.error (JsError.rangeError "Invalid time value") := by
  decide

/-- C9 (amended). For every date formatter, every engine and every list of
reports in which each report with the status reported or under_review has a
`created_date` that the date library formats, `exportData` succeeds and its
rows stand one-to-one and in input order for exactly the reports whose status
is reported or under_review, each row being the projection of its report;
none of these reports has the status action_initiated or resolved, and the
date of a report with another status is not read. -/
theorem exportData_rows_for_authorities (formatDate : String → Except JsError String)
    (inheritedText : String → Option String) (reports : List Report)
    (hdate : ∀ r ∈ reports, isForAuthorities r = true → dateFormats formatDate r = true) :
    (∃ rows : List ExportRow, exportData formatDate inheritedText reports = Except.ok rows
      ∧ List.Forall₂ (fun row r => exportRow formatDate inheritedText r = Except.ok row) rows
          (reports.filter
            (fun r => decide (r.status = some "reported" ∨ r.status = some "under_review")))
      ∧ rows.length
          = (reports.filter
              (fun r => decide (r.status = some "reported" ∨ r.status = some "under_review"))).length)
    ∧ (∀ r ∈ reports.filter
          (fun r => decide (r.status = some "reported" ∨ r.status = some "under_review")),
        r.status ≠ some "action_initiated" ∧ r.status ≠ some "resolved") := by
  have hfilter : reports.filter isForAuthorities
      = reports.filter
          (fun r => decide (r.status = some "reported" ∨ r.status = some "under_review")) := by
    apply List.filter_congr
    intro r _
    rw [Bool.eq_iff_iff, isForAuthorities_iff]
    simp
  refine ⟨?_, ?_⟩
  · have hall : ∀ r ∈ reports.filter isForAuthorities,
        ∃ row, exportRow formatDate inheritedText r = Except.ok row := by
      intro r hr
      have hin := List.mem_filter.1 hr
      exact exportRow_ok_of_exported formatDate inheritedText r hin.2 (hdate r hin.1 hin.2)
    obtain ⟨rows, hrows, hforall⟩ :=
      mapArray_of_total (exportRow formatDate inheritedText) _ hall
    rw [hfilter] at hforall
    exact ⟨rows, hrows, hforall, hforall.length_eq⟩
  · intro r hr
    have hs := (List.mem_filter.1 hr).2
    simp only [decide_eq_true_eq] at hs
    rcases hs with hs | hs <;> rw [hs] <;> constructor <;> decide

/-- C9 (witness). One resolved report, which has no date at all, and one
reported report give exactly one row, the row of the reported one. -/
theorem exportData_rows_for_authorities_witness :
    (exportData (fun d => Except.ok d) (fun _ => none)
        [ { blankReport "r1" with status := some "resolved", created_date := none },
          { blankReport "r2" with status := some "reported" } ]).map List.length
      = Except.ok 1
    ∧ ∃ rows : List ExportRow,
        exportData (fun d => Except.ok d) (fun _ => none)
          [ { blankReport "r1" with status := some "resolved", created_date := none },
            { blankReport "r2" with status := some "reported" } ] = Except.ok rows
        ∧ rows.length = 1 :=
  ⟨by decide,
    (exportData_rows_for_authorities (fun d => Except.ok d) (fun _ => none)
      [ { blankReport "r1" with status := some "resolved", created_date := none },
        { blankReport "r2" with status := some "reported" } ] (by decide)).1.imp
      (fun _ hrows => ⟨hrows.1, hrows.2.2⟩)⟩

/-! ## Theorems: report creation -/

/-- C10. For every form whose four required fields are non-empty, every photo
list and every classifier answer, `handleSubmit` passes exactly one record to
`ProblemReport.create`: it has the submitted title, description, location and
category, the photo list in order, status "reported", no upvotes,
`upvote_count` 0, `comment_count` 0 and the sentiment the classifier
returned. -/
theorem handleSubmit_creates_initial_record
    (InvokeLLM : String → Except JsError SentimentAnalysis)
    (create : NewReport → Except JsError Unit)
    (formData : FormData) (photos : List String) (analysis : SentimentAnalysis)
    (hvalid : formData.title ≠ "" ∧ formData.description ≠ "" ∧ formData.location ≠ ""
      ∧ formData.category ≠ "")
    (hclass : InvokeLLM (sentimentPrompt (submittedReportData formData photos))
      = Except.ok analysis) :
    (handleSubmit InvokeLLM create formData photos).createCalls
      = [ { title := formData.title
            description := formData.description
            location := formData.location
            category := formData.category
            photo_urls := photos
            status := "reported"
            upvotes := []
            upvote_count := 0
            sentiment := analysis.sentiment
            comment_count := 0 } ] := by
  obtain ⟨h1, h2, h3, h4⟩ := hvalid
  unfold handleSubmit
  rw [if_neg (by simp [h1, h2, h3, h4])]
  unfold createReportMutation.mutateAsync
  rw [hclass]
  dsimp only
  split <;> rfl

/-- C10 (witness). The streetlight report with two photos and a classifier
that answers "concerned". -/
theorem handleSubmit_creates_initial_record_witness :
    (handleSubmit (fun _ => Except.ok { sentiment := some "concerned", reason := none })
        (fun _ => Except.ok ())
        { title := "Broken streetlight", description := "Pole #4 dark for a week",
          location := "5th & Elm", category := "street_lights" }
        ["https://files.example/p1.jpg", "https://files.example/p2.jpg"]).createCalls
      = [ { title := "Broken streetlight"
            description := "Pole #4 dark for a week"
            location := "5th & Elm"
            category := "street_lights"
            photo_urls := ["https://files.example/p1.jpg", "https://files.example/p2.jpg"]
            status := "reported"
            upvotes := []
            upvote_count := 0
            sentiment := some "concerned"
            comment_count := 0 } ] :=
  handleSubmit_creates_initial_record
    (fun _ => Except.ok { sentiment := some "concerned", reason := none })
    (fun _ => Except.ok ())
    { title := "Broken streetlight", description := "Pole #4 dark for a week",
      location := "5th & Elm", category := "street_lights" }
    ["https://files.example/p1.jpg", "https://files.example/p2.jpg"]
    { sentiment := some "concerned", reason := none }
    (by decide) rfl

/-- C11. For every form input, photo list and store, when the classifier
call fails no record is passed to `ProblemReport.create`, and the error shown
is the validation message for a form with an empty required field (the
classifier is then not even called) and otherwise the message of the
classifier's error (the generic text when that message is empty). -/
theorem handleSubmit_classifier_failure_creates_nothing
    (InvokeLLM : String → Except JsError SentimentAnalysis)
    (create : NewReport → Except JsError Unit)
    (formData : FormData) (photos : List String) (err : JsError)
    (hfail : InvokeLLM (sentimentPrompt (submittedReportData formData photos))
      = Except.error err) :
    (handleSubmit InvokeLLM create formData photos).createCalls = []
    ∧ (handleSubmit InvokeLLM create formData photos).error
      = some (if formData.title = "" ∨ formData.description = "" ∨ formData.location = ""
            ∨ formData.category = "" then
          "Please fill in all required fields"
        else createReportMutation.onError err) := by
  unfold handleSubmit
  by_cases hv : formData.title = "" ∨ formData.description = "" ∨ formData.location = ""
      ∨ formData.category = ""
  · rw [if_pos hv, if_pos hv]
    exact ⟨rfl, rfl⟩
  · rw [if_neg hv, if_neg hv]
    unfold createReportMutation.mutateAsync
    rw [hfail]
    exact ⟨rfl, rfl⟩

/-- C11 (witness). The streetlight report with a classifier that is down:
nothing is created and the classifier's message is shown. -/
theorem handleSubmit_classifier_failure_creates_nothing_witness :
    (handleSubmit (fun _ => Except.error (JsError.error "LLM unavailable"))
        (fun _ => Except.ok ())
        { title := "Broken streetlight", description := "Pole #4 dark for a week",
          location := "5th & Elm", category := "street_lights" } []).createCalls = []
    ∧ (handleSubmit (fun _ => Except.error (JsError.error "LLM unavailable"))
        (fun _ => Except.ok ())
        { title := "Broken streetlight", description := "Pole #4 dark for a week",
          location := "5th & Elm", category := "street_lights" } []).error
      = some "LLM unavailable" :=
  ⟨(handleSubmit_classifier_failure_creates_nothing
      (fun _ => Except.error (JsError.error "LLM unavailable")) (fun _ => Except.ok ())
      { title := "Broken streetlight", description := "Pole #4 dark for a week",
        location := "5th & Elm", category := "street_lights" } []
      (JsError.error "LLM unavailable") rfl).1,
    by decide⟩

/-- C12. For every classifier, store, form and photo list: a required field
is empty exactly when `handleSubmit` ends with the message "Please fill in all
required fields" having called neither the classifier nor the store; and the
classifier is called, once and with the prompt of the submitted data, exactly
when the four required fields are non-empty. -/
theorem handleSubmit_validation (InvokeLLM : String → Except JsError SentimentAnalysis)
    (create : NewReport → Except JsError Unit) (formData : FormData) (photos : List String) :
    ((formData.title = "" ∨ formData.description = "" ∨ formData.location = ""
        ∨ formData.category = "")
      ↔ handleSubmit InvokeLLM create formData photos
        = { error := some "Please fill in all required fields"
            classifierCalls := []
            createCalls := [] })
    ∧ (handleSubmit InvokeLLM create formData photos).classifierCalls
      = (if formData.title = "" ∨ formData.description = "" ∨ formData.location = ""
            ∨ formData.category = "" then []
        else [sentimentPrompt (submittedReportData formData photos)]) := by
  have hcalls : ∀ data : ReportData,
      (createReportMutation.mutateAsync InvokeLLM create data).classifierCalls
        = [sentimentPrompt data] := by
    intro data
    unfold createReportMutation.mutateAsync
    split
    · rfl
    · dsimp only
      split <;> rfl
  by_cases hv : formData.title = "" ∨ formData.description = "" ∨ formData.location = ""
      ∨ formData.category = ""
  · have hout : handleSubmit InvokeLLM create formData photos
        = { error := some "Please fill in all required fields"
            classifierCalls := []
            createCalls := [] } := by
      unfold handleSubmit
      rw [if_pos hv]
    refine ⟨⟨fun _ => hout, fun _ => hv⟩, ?_⟩
    rw [hout, if_pos hv]
  · have hout : handleSubmit InvokeLLM create formData photos
        = createReportMutation.mutateAsync InvokeLLM create
            (submittedReportData formData photos) := by
      unfold handleSubmit
      rw [if_neg hv]
    refine ⟨⟨fun h => absurd h hv, fun h => ?_⟩, ?_⟩
    · have hc := hcalls (submittedReportData formData photos)
      rw [← hout, h] at hc
      exact absurd hc (by simp)
    · rw [hout, if_neg hv]
      exact hcalls _

/-! ## Theorems: AdvanceStatus -/

/-- C13 (counterexample). A signed-in citizen is sent to the Feed by
`loadUser`, yet the status mutation, which reads neither the user nor a role,
does not fail: it issues the update, and the stored status of the report
changes from reported to resolved. -/
theorem updateStatusMutation_has_no_role_check :
    AdminDashboard.loadUser (Except.ok true)
        (Except.ok { email := "c@civic.org", role := "citizen" })
      = { user := none, navigatedTo := some "/feed", isCheckingAuth := false }
    ∧ AdminDashboard.updateStatusMutation "r1" "resolved"
      = StoreCall.update "r1" { PartialFields.empty with status := some "resolved" }
    ∧ (applyCall { blankReport "r1" with status := some "reported" }
        (AdminDashboard.updateStatusMutation "r1" "resolved")).status = some "resolved" := by
  decide

/-- C13 (amended). For every signed-in user whose role is not admin,
`loadUser` of the admin dashboard redirects to the Feed and does not set the
user: the role gate is at page load. The status mutation itself has no role
check: for every report and status it issues one update of that report that
carries the status. -/
theorem loadUser_redirects_non_admin (u : User) (h : u.role ≠ "admin") :
    AdminDashboard.loadUser (Except.ok true) (Except.ok u)
      = { user := none, navigatedTo := some "/feed", isCheckingAuth := false }
    ∧ ∀ (r : Report) (newStatus : String),
        AdminDashboard.updateStatusMutation r.id newStatus
          = StoreCall.update r.id { PartialFields.empty with status := some newStatus } := by
  refine ⟨?_, fun _ _ => rfl⟩
  unfold AdminDashboard.loadUser
  simp only [h, ne_eq, not_false_eq_true, if_true]
  rfl

/-- C13 (witness). A citizen is redirected to the Feed. -/
theorem loadUser_redirects_non_admin_witness :
    AdminDashboard.loadUser (Except.ok true)
        (Except.ok { email := "c@civic.org", role := "citizen" })
      = { user := none, navigatedTo := some "/feed", isCheckingAuth := false } :=
  (loadUser_redirects_non_admin { email := "c@civic.org", role := "citizen" } (by decide)).1

/-- C14 (counterexample). The status "closed", which is outside the
enumeration, is not rejected: the mutation issues the update and the stored
status becomes "closed". -/
theorem updateStatusMutation_writes_unknown_status :
    ("closed" ∉ statusEnumeration)
    ∧ AdminDashboard.updateStatusMutation "r7" "closed"
      = StoreCall.update "r7" { PartialFields.empty with status := some "closed" }
    ∧ (applyCall { blankReport "r7" with status := some "under_review" }
        (AdminDashboard.updateStatusMutation "r7" "closed")).status = some "closed" := by
  decide

/-- C14 (amended). For every report, whatever its current status, and every
new status, in particular each of the four of the enumeration, the status
mutation issues an update of that report that writes exactly the new status,
with no ordering constraint and no validation. -/
theorem updateStatusMutation_writes_newStatus (r : Report) (newStatus : String) :
    AdminDashboard.updateStatusMutation r.id newStatus
      = StoreCall.update r.id { PartialFields.empty with status := some newStatus }
    ∧ (applyCall r (AdminDashboard.updateStatusMutation r.id newStatus)).status = some newStatus
    ∧ ∀ s ∈ statusEnumeration,
        (applyCall r (AdminDashboard.updateStatusMutation r.id s)).status = some s :=
  ⟨rfl, rfl, fun _ _ => rfl⟩

/-- C15. With no signed-in user, the upvote mutation of the report page fails
with the error "User not authenticated.", while those of the Feed and of the
My Reports page fail with the `TypeError` of reading `user.email` on `null`;
none of the three issues a store update. -/
theorem upvoteMutation_without_user (r : Report) :
    ReportDetails.upvoteMutation none r = Except.error (JsError.error "User not authenticated.")
    ∧ Feed.upvoteMutation none r
      = Except.error (JsError.typeError "Cannot read properties of null (reading 'email')")
    ∧ MyReports.upvoteMutation none r
      = Except.error (JsError.typeError "Cannot read properties of null (reading 'email')")
    ∧ ∀ (page : Page) (call : StoreCall), upvoteMutationOn page none r ≠ Except.ok call := by
  refine ⟨rfl, rfl, rfl, ?_⟩
  intro page call
  cases page <;> exact fun h => Except.noConfusion h

/-! ## Theorems: photos -/

theorem mapArray_length {α β : Type} (callback : α → Except JsError β) (l : List α)
    (ys : List β) (h : mapArray callback l = Except.ok ys) : ys.length = l.length := by
  induction l generalizing ys with
  | nil =>
    have hnil : ys = [] := by
      simpa [mapArray] using h.symm
    rw [hnil]
    rfl
  | cons x xs ih =>
    unfold mapArray at h
    cases hx : callback x with
    | error e => rw [hx] at h; exact Except.noConfusion h
    | ok y =>
      rw [hx] at h
      cases hxs : mapArray callback xs with
      | error e => rw [hxs] at h; exact Except.noConfusion h
      | ok zs =>
        rw [hxs] at h
        have hy : ys = y :: zs := (Except.ok.inj h).symm
        rw [hy, List.length_cons, List.length_cons, ih zs hxs]

theorem handlePhotoUpload_length_le (UploadFile : String → Except JsError String)
    (state : PhotoState) (files : List String) (h : state.photos.length ≤ 5) :
    (handlePhotoUpload UploadFile state files).photos.length ≤ 5 := by
  unfold handlePhotoUpload
  by_cases hmax : state.photos.length + files.length > 5
  · rw [if_pos hmax]
    exact h
  · rw [if_neg hmax]
    cases hup : mapArray UploadFile files with
    | error e => exact h
    | ok urls =>
      have hlen := mapArray_length UploadFile files urls hup
      show (state.photos ++ urls).length ≤ 5
      rw [List.length_append, hlen]
      omega

theorem removePhoto_length_le (state : PhotoState) (index : Nat) :
    (removePhoto state index).photos.length ≤ state.photos.length := by
  unfold removePhoto
  show ((state.photos.enum.filter (fun p => p.1 != index)).map Prod.snd).length ≤ _
  rw [List.length_map]
  exact le_trans (List.length_filter_le _ _) (le_of_eq (List.enum_length))

theorem foldl_photoStep_length_le (UploadFile : String → Except JsError String)
    (steps : List PhotoStep) (state : PhotoState) (h : state.photos.length ≤ 5) :
    (steps.foldl (photoStep UploadFile) state).photos.length ≤ 5 := by
  induction steps generalizing state with
  | nil => exact h
  | cons step rest ih =>
    rw [List.foldl_cons]
    apply ih
    cases step with
    | upload files => exact handlePhotoUpload_length_le UploadFile state files h
    | remove index => exact le_trans (removePhoto_length_le state index) h

theorem handleSubmit_createCalls_photos
    (InvokeLLM : String → Except JsError SentimentAnalysis)
    (create : NewReport → Except JsError Unit) (formData : FormData) (photos : List String)
    (record : NewReport)
    (h : record ∈ (handleSubmit InvokeLLM create formData photos).createCalls) :
    record.photo_urls = photos := by
  unfold handleSubmit at h
  split at h
  · simp at h
  · unfold createReportMutation.mutateAsync at h
    split at h
    · simp at h
    · dsimp only at h
      split at h <;> simp at h <;> rw [h] <;> rfl

/-- C16. For every upload service and every sequence of upload and remove
actions starting from the empty photo list, each applied to the list left by
the previous one, the photo list has at most 5 entries; an upload of `k` files
onto `m` photos with `m + k > 5` is rejected with "Maximum 5 photos allowed"
and leaves the list unchanged; and every record that `handleSubmit` passes to
`ProblemReport.create` with such a photo list has at most 5 `photo_urls`. -/
theorem photos_at_most_five (UploadFile : String → Except JsError String)
    (steps : List PhotoStep) :
    (runPhotoSteps UploadFile steps).photos.length ≤ 5
    ∧ (∀ (state : PhotoState) (files : List String),
        state.photos.length + files.length > 5 →
        handlePhotoUpload UploadFile state files
          = { photos := state.photos, error := some "Maximum 5 photos allowed" })
    ∧ ∀ (InvokeLLM : String → Except JsError SentimentAnalysis)
        (create : NewReport → Except JsError Unit) (formData : FormData),
        ∀ record ∈ (handleSubmit InvokeLLM create formData
            (runPhotoSteps UploadFile steps).photos).createCalls,
          record.photo_urls.length ≤ 5 := by
  have hrun : (runPhotoSteps UploadFile steps).photos.length ≤ 5 :=
    foldl_photoStep_length_le UploadFile steps PhotoState.initial (by decide)
  refine ⟨hrun, ?_, ?_⟩
  · intro state files hmax
    unfold handlePhotoUpload
    rw [if_pos hmax]
  · intro InvokeLLM create formData record hrec
    rw [handleSubmit_createCalls_photos InvokeLLM create formData _ record hrec]
    exact hrun

/-- C16 (witness). Three photos are uploaded, a further three are rejected,
one photo is removed and then two more are accepted: four photos in the
end. -/
theorem photos_at_most_five_witness :
    runPhotoSteps (fun file => Except.ok ("https://files.example/" ++ file))
        [ PhotoStep.upload ["a.jpg", "b.jpg", "c.jpg"],
          PhotoStep.upload ["d.jpg", "e.jpg", "f.jpg"],
          PhotoStep.remove 1,
          PhotoStep.upload ["g.jpg", "h.jpg"] ]
      = { photos := [ "https://files.example/a.jpg", "https://files.example/c.jpg",
                      "https://files.example/g.jpg", "https://files.example/h.jpg" ]
          error := none }
    ∧ (runPhotoSteps (fun file => Except.ok ("https://files.example/" ++ file))
        [ PhotoStep.upload ["a.jpg", "b.jpg", "c.jpg"],
          PhotoStep.upload ["d.jpg", "e.jpg", "f.jpg"],
          PhotoStep.remove 1,
          PhotoStep.upload ["g.jpg", "h.jpg"] ]).photos.length ≤ 5
    ∧ handlePhotoUpload (fun file => Except.ok ("https://files.example/" ++ file))
        { photos := ["u1", "u2", "u3"], error := none } ["d.jpg", "e.jpg", "f.jpg"]
      = { photos := ["u1", "u2", "u3"], error := some "Maximum 5 photos allowed" } :=
  ⟨by decide,
    (photos_at_most_five (fun file => Except.ok ("https://files.example/" ++ file))
      [ PhotoStep.upload ["a.jpg", "b.jpg", "c.jpg"],
        PhotoStep.upload ["d.jpg", "e.jpg", "f.jpg"],
        PhotoStep.remove 1,
        PhotoStep.upload ["g.jpg", "h.jpg"] ]).1,
    (photos_at_most_five (fun file => Except.ok ("https://files.example/" ++ file)) []).2.1
      { photos := ["u1", "u2", "u3"], error := none } ["d.jpg", "e.jpg", "f.jpg"] (by decide)⟩

/-! ## Theorems: sentiment and frame -/

/-- C17 (counterexample). For the streetlight report, a classifier answer
without a sentiment gives a created record without one, and the answer
"angry" gives a created record with the sentiment "angry", which is none of
the four values; the store accepts both. -/
theorem handleSubmit_stores_any_sentiment :
    ((handleSubmit (fun _ => Except.ok { sentiment := none, reason := some "unclear" })
        (fun _ => Except.ok ())
        { title := "Broken streetlight", description := "Pole #4 dark for a week",
          location := "5th & Elm", category := "street_lights" } []).createCalls.map
      (fun record => record.sentiment)) = [none]
    ∧ ((handleSubmit (fun _ => Except.ok { sentiment := some "angry", reason := none })
        (fun _ => Except.ok ())
        { title := "Broken streetlight", description := "Pole #4 dark for a week",
          location := "5th & Elm", category := "street_lights" } []).createCalls.map
      (fun record => record.sentiment)) = [some "angry"]
    ∧ (handleSubmit (fun _ => Except.ok { sentiment := some "angry", reason := none })
        (fun _ => Except.ok ())
        { title := "Broken streetlight", description := "Pole #4 dark for a week",
          location := "5th & Elm", category := "street_lights" } []).error = none
    ∧ "angry" ∉ sentimentEnumeration := by
  decide

/-- C17 (amended). For every form whose required fields are non-empty, every
photo list, every store and every classifier answer, whatever it holds, the
one record passed to `ProblemReport.create` carries the sentiment of the
answer unchecked: missing when the answer has none, the same string
otherwise. So the stored sentiment is one of urgent, concerned, neutral,
positive exactly when the answer carries one of these. -/
theorem handleSubmit_stores_classifier_sentiment
    (InvokeLLM : String → Except JsError SentimentAnalysis)
    (create : NewReport → Except JsError Unit)
    (formData : FormData) (photos : List String) (analysis : SentimentAnalysis)
    (hvalid : formData.title ≠ "" ∧ formData.description ≠ "" ∧ formData.location ≠ ""
      ∧ formData.category ≠ "")
    (hclass : InvokeLLM (sentimentPrompt (submittedReportData formData photos))
      = Except.ok analysis) :
    (handleSubmit InvokeLLM create formData photos).createCalls.map
        (fun record => record.sentiment) = [analysis.sentiment]
    ∧ (∀ record ∈ (handleSubmit InvokeLLM create formData photos).createCalls,
        record.sentiment = analysis.sentiment)
    ∧ ∀ record ∈ (handleSubmit InvokeLLM create formData photos).createCalls,
        ((∃ v ∈ sentimentEnumeration, record.sentiment = some v)
          ↔ ∃ v ∈ sentimentEnumeration, analysis.sentiment = some v) := by
  obtain ⟨h1, h2, h3, h4⟩ := hvalid
  have hcalls : (handleSubmit InvokeLLM create formData photos).createCalls.map
      (fun record => record.sentiment) = [analysis.sentiment] := by
    unfold handleSubmit
    rw [if_neg (by simp [h1, h2, h3, h4])]
    unfold createReportMutation.mutateAsync
    rw [hclass]
    dsimp only
    split <;> rfl
  have hsame : ∀ record ∈ (handleSubmit InvokeLLM create formData photos).createCalls,
      record.sentiment = analysis.sentiment := by
    intro record hrec
    have hin : record.sentiment
        ∈ (handleSubmit InvokeLLM create formData photos).createCalls.map
          (fun record => record.sentiment) := List.mem_map_of_mem _ hrec
    rw [hcalls, List.mem_singleton] at hin
    exact hin
  refine ⟨hcalls, hsame, ?_⟩
  intro record hrec
  rw [hsame record hrec]

/-- C17 (witness). The streetlight report: the answer "urgent" is stored as
"urgent", and an answer "furious" is stored as "furious". -/
theorem handleSubmit_stores_classifier_sentiment_witness :
    (handleSubmit (fun _ => Except.ok { sentiment := some "urgent", reason := none })
        (fun _ => Except.ok ())
        { title := "Broken streetlight", description := "Pole #4 dark for a week",
          location := "5th & Elm", category := "street_lights" } []).createCalls.map
      (fun record => record.sentiment) = [some "urgent"]
    ∧ (handleSubmit (fun _ => Except.ok { sentiment := some "furious", reason := none })
        (fun _ => Except.ok ())
        { title := "Broken streetlight", description := "Pole #4 dark for a week",
          location := "5th & Elm", category := "street_lights" } []).createCalls.map
      (fun record => record.sentiment) = [some "furious"] :=
  ⟨(handleSubmit_stores_classifier_sentiment
      (fun _ => Except.ok { sentiment := some "urgent", reason := none })
      (fun _ => Except.ok ())
      { title := "Broken streetlight", description := "Pole #4 dark for a week",
        location := "5th & Elm", category := "street_lights" } []
      { sentiment := some "urgent", reason := none }
      (by decide) rfl).1,
    (handleSubmit_stores_classifier_sentiment
      (fun _ => Except.ok { sentiment := some "furious", reason := none })
      (fun _ => Except.ok ())
      { title := "Broken streetlight", description := "Pole #4 dark for a week",
        location := "5th & Elm", category := "street_lights" } []
      { sentiment := some "furious", reason := none }
      (by decide) rfl).1⟩

/-- C18. On each page and for every user and report, the update written by
ToggleUpvote has the keys `upvotes` and `upvote_count` and no other, and the
stored report keeps its sentiment, title, description, location, category,
photo URLs, author and status. For every report and status, the update written
by the status mutation has the key `status` and no other, and the stored
report keeps its sentiment, title, description, location, category, photo
URLs, author, upvotes and upvote count. -/
theorem updates_touch_only_their_fields (page : Page) (u : User) (r : Report)
    (newStatus : String) :
    (∃ (ups : List String) (count : Int),
        upvoteMutationOn page (some u) r
          = Except.ok (StoreCall.update r.id
              { title := none, description := none, location := none, category := none
                status := none, sentiment := none, upvotes := some ups
                upvote_count := some count, comment_count := none, photo_urls := none
                created_by := none })
        ∧ toggleAndStore page (some u) r
          = Except.ok { r with upvotes := some ups, upvote_count := some count })
    ∧ AdminDashboard.updateStatusMutation r.id newStatus
      = StoreCall.update r.id
          { title := none, description := none, location := none, category := none
            status := some newStatus, sentiment := none, upvotes := none
            upvote_count := none, comment_count := none, photo_urls := none
            created_by := none }
    ∧ applyCall r (AdminDashboard.updateStatusMutation r.id newStatus)
      = { r with status := some newStatus } := by
  refine ⟨⟨newUpvotes r u.email, ((newUpvotes r u.email).length : Int), ?_, ?_⟩, rfl, rfl⟩
  · exact upvoteMutationOn_some page u r
  · unfold toggleAndStore
    rw [upvoteMutationOn_some]
    rfl

/-! ## Theorems: CSV cells and export row fields -/

theorem isSubstring_singleton (c : Char) (text : List Char) :
    isSubstring [c] text = true ↔ c ∈ text := by
  induction text with
  | nil => simp [isSubstring]
  | cons d ds ih =>
    simp only [isSubstring, Bool.or_eq_true, ih, List.mem_cons]
    simp [List.isPrefixOf]

theorem doubleQuoteChars_eq (l : List Char) :
    doubleQuoteChars l = (l.map (fun c => if c = '"' then ['"', '"'] else [c])).flatten := by
  induction l with
  | nil => rfl
  | cons c cs ih =>
    unfold doubleQuoteChars
    by_cases hc : c = '"'
    · simp [hc, ih]
    · simp [hc, ih]

theorem quoted_or_plain_eq_doublingRule (value : String) :
    (if (includes value "," || includes value "\"") = true then
        "\"" ++ replaceQuotes value ++ "\""
      else value) = doublingRule value := by
  have hcomma : includes value "," = true ↔ ',' ∈ value.data := isSubstring_singleton ',' _
  have hquote : includes value "\"" = true ↔ '"' ∈ value.data := isSubstring_singleton '"' _
  unfold doublingRule
  by_cases h : ',' ∈ value.data ∨ '"' ∈ value.data
  · have hb : (includes value "," || includes value "\"") = true := by
      rw [Bool.or_eq_true, hcomma, hquote]
      exact h
    rw [if_pos hb, if_pos h]
    apply String.ext
    simp [replaceQuotes, doubleQuoteChars_eq]
  · have hb : ¬ (includes value "," || includes value "\"") = true := by
      rw [Bool.or_eq_true, hcomma, hquote]
      exact h
    rw [if_neg hb, if_neg h]

/-- C19 (counterexample). The export-row value 0, whose string form is "0"
and holds neither a comma nor a quote, is written as the empty cell; so is an
absent value, whose string form is "undefined". -/
theorem csvCell_zero_is_empty :
    csvCell (JsValue.num 0) = ""
    ∧ (JsValue.num 0).toJsString = "0"
    ∧ doublingRule "0" = "0"
    ∧ csvCell JsValue.undefined = ""
    ∧ JsValue.undefined.toJsString = "undefined" := by
  decide

/-- C19 (amended). For every export-row value that is a string or a number
other than 0, the CSV cell is its string form under the doubling rule; an
absent value is written as the empty cell; and the cells of a row are joined
with commas in header order. -/
theorem csvCell_doubling_rule (v : JsValue) (hdef : v ≠ JsValue.undefined)
    (hzero : v ≠ JsValue.num 0) :
    csvCell v = doublingRule v.toJsString
    ∧ csvCell JsValue.undefined = ""
    ∧ ∀ (headers : List String) (row : ExportRow),
        csvLine headers row
          = String.intercalate "," (headers.map (fun header => csvCell (rowValue row header))) := by
  refine ⟨?_, by decide, fun _ _ => rfl⟩
  cases v with
  | undefined => exact absurd rfl hdef
  | str s => exact quoted_or_plain_eq_doublingRule s
  | num n =>
    have hn : n ≠ 0 := fun h0 => hzero (by rw [h0])
    have hor : (JsValue.num n).orEmpty = JsValue.num n := by
      simp [JsValue.orEmpty, hn]
    unfold csvCell
    rw [hor]
    exact quoted_or_plain_eq_doublingRule (JsValue.num n).toJsString
  | object text => exact quoted_or_plain_eq_doublingRule text

/-- C19 (witness). A location with a comma and quoted words is wrapped in
quotes with the inner quotes doubled, and a two-cell row is joined by a
comma. -/
theorem csvCell_doubling_rule_witness :
    csvCell (JsValue.str "Main St, \"north\" side") = "\"Main St, \"\"north\"\" side\""
    ∧ csvLine ["Title", "Location"]
        [("Title", JsValue.str "Pothole"), ("Location", JsValue.str "Main St, 5")]
      = "Pothole,\"Main St, 5\"" :=
  ⟨(csvCell_doubling_rule (JsValue.str "Main St, \"north\" side") (by decide) (by decide)).1.trans
      (by decide),
    by decide⟩

theorem categoryLabel_of_mem (inheritedText : String → Option String) (c label : String)
    (h : (c, label) ∈ categoryLabels) :
    categoryLabel inheritedText (some c) = JsValue.str label := by
  simp only [categoryLabels, List.mem_cons, Prod.mk.injEq, List.not_mem_nil, or_false] at h
  rcases h with ⟨hc, hl⟩ | ⟨hc, hl⟩ | ⟨hc, hl⟩ | ⟨hc, hl⟩ | ⟨hc, hl⟩ | ⟨hc, hl⟩ | ⟨hc, hl⟩ <;>
    subst hc <;> subst hl <;> rfl

/-- C20. For every date formatter, every engine and every exported report,
that is one with the status reported or under_review and a `created_date`
that the date library formats, the export row exists and has Title,
Description, Location and Reported By equal to the fields of the report,
Category equal to the label listed for the category of the report, Status
equal to the status with every underscore replaced by a space, Sentiment equal
to the sentiment of the report or "neutral" when it has none (an empty
sentiment counts as none), and Photo URLs equal to the photo URLs joined with
", " in order, the empty string when there are none. -/
theorem exportRow_fields (formatDate : String → Except JsError String)
    (inheritedText : String → Option String) (r : Report)
    (h : r.status = some "reported" ∨ r.status = some "under_review")
    (hdate : dateFormats formatDate r = true) :
    ∃ (row : ExportRow) (status : String),
      exportRow formatDate inheritedText r = Except.ok row ∧ r.status = some status
      ∧ exportData formatDate inheritedText [r] = Except.ok [row]
      ∧ row.map Prod.fst = exportKeys
      ∧ rowValue row "Title" = JsValue.ofField r.title
      ∧ rowValue row "Description" = JsValue.ofField r.description
      ∧ rowValue row "Location" = JsValue.ofField r.location
      ∧ rowValue row "Reported By" = JsValue.ofField r.created_by
      ∧ (∀ c label : String, (c, label) ∈ categoryLabels → r.category = some c →
          rowValue row "Category" = JsValue.str label)
      ∧ rowValue row "Status"
        = JsValue.str (String.mk (status.data.map (fun c => if c = '_' then ' ' else c)))
      ∧ '_' ∉ (replaceUnderscores status).data
      ∧ rowValue row "Sentiment"
        = JsValue.str
            (match r.sentiment with
              | none => "neutral"
              | some s => if s = "" then "neutral" else s)
      ∧ rowValue row "Photo URLs"
        = JsValue.str
            (match r.photo_urls with
              | none => ""
              | some urls => String.intercalate ", " urls) := by
  have hfor : isForAuthorities r = true := (isForAuthorities_iff r).2 h
  obtain ⟨created, date, hc, hf⟩ := (dateFormats_iff formatDate r).1 hdate
  have hst : ∃ status, r.status = some status := by
    rcases h with h | h
    · exact ⟨_, h⟩
    · exact ⟨_, h⟩
  obtain ⟨status, hs⟩ := hst
  have hrow := exportRow_of_date formatDate inheritedText r status created date hs hc hf
  refine ⟨_, status, hrow, hs, ?_, rfl, rfl, rfl, rfl, rfl, ?_, rfl, ?_, ?_, ?_⟩
  · unfold exportData
    rw [List.filter_cons, if_pos hfor]
    unfold mapArray
    rw [hrow]
    rfl
  · intro c label hmem hcat
    rw [hcat]
    exact categoryLabel_of_mem inheritedText c label hmem
  · intro hmem
    simp only [replaceUnderscores, List.mem_map] at hmem
    obtain ⟨a, _, ha⟩ := hmem
    by_cases hu : a = '_'
    · rw [if_pos hu] at ha
      exact absurd ha (by decide)
    · rw [if_neg hu] at ha
      exact hu ha
  · show JsValue.str (sentimentOrNeutral r.sentiment) = _
    unfold sentimentOrNeutral
    cases r.sentiment <;> rfl
  · show JsValue.str (joinPhotoUrls r.photo_urls) = _
    unfold joinPhotoUrls
    cases r.photo_urls <;> rfl

/-- C20 (witness). A pothole report under review with two photos and no
sentiment, and the same report with an empty sentiment. -/
theorem exportRow_fields_witness :
    exportRow (fun d => Except.ok d) (fun _ => none)
        { blankReport "r1" with
          title := some "Pothole", description := some "Deep hole",
          location := some "Main St", category := some "roads_potholes",
          status := some "under_review", created_by := some "a@civic.org",
          photo_urls := some ["https://files.example/1.jpg", "https://files.example/2.jpg"] }
      = Except.ok
          [ ("Title", JsValue.str "Pothole"),
            ("Description", JsValue.str "Deep hole"),
            ("Location", JsValue.str "Main St"),
            ("Category", JsValue.str "Roads & Potholes"),
            ("Status", JsValue.str "under review"),
            ("Upvotes", JsValue.num 0),
            ("Comments", JsValue.num 0),
            ("Sentiment", JsValue.str "neutral"),
            ("Reported By", JsValue.str "a@civic.org"),
            ("Date", JsValue.str "2024-05-01T10:00:00Z"),
            ("Photo URLs",
              JsValue.str "https://files.example/1.jpg, https://files.example/2.jpg") ]
    ∧ (exportRow (fun d => Except.ok d) (fun _ => none)
        { blankReport "r1" with status := some "reported", sentiment := some "" }).map
        (fun row => rowValue row "Sentiment") = Except.ok (JsValue.str "neutral")
    ∧ ∃ (row : ExportRow) (status : String),
        exportRow (fun d => Except.ok d) (fun _ => none)
          { blankReport "r1" with
            title := some "Pothole", description := some "Deep hole",
            location := some "Main St", category := some "roads_potholes",
            status := some "under_review", created_by := some "a@civic.org",
            photo_urls := some ["https://files.example/1.jpg", "https://files.example/2.jpg"] }
          = Except.ok row
        ∧ some "under_review" = some status
        ∧ rowValue row "Title" = JsValue.str "Pothole" :=
  ⟨by decide, by decide,
    (exportRow_fields (fun d => Except.ok d) (fun _ => none)
      { blankReport "r1" with
        title := some "Pothole", description := some "Deep hole",
        location := some "Main St", category := some "roads_potholes",
        status := some "under_review", created_by := some "a@civic.org",
        photo_urls := some ["https://files.example/1.jpg", "https://files.example/2.jpg"] }
      (Or.inr rfl) (by decide)).imp
      (fun _ hrow => hrow.imp (fun _ hall => ⟨hall.1, hall.2.1, hall.2.2.2.2.1⟩))⟩

/-! ## Theorems: concurrent toggles -/

/-- C21. For every report snapshot with no repeated upvoter and any two
distinct users who are both absent from its upvotes, when both ToggleUpvote
updates are computed from that same snapshot and the store applies the first
user's write and then the second user's, the stored upvotes are the
snapshot's followed by the second user: they contain the second user and not
the first, and the stored `upvote_count` is the number of upvoters of the
snapshot plus one. The first user's vote is lost. -/
theorem concurrent_toggles_lose_first_vote (page1 page2 : Page) (u1 u2 : User) (r : Report)
    (hne : u1.email ≠ u2.email) (h1 : u1.email ∉ upvotesOrEmpty r)
    (h2 : u2.email ∉ upvotesOrEmpty r) (hnd : (upvotesOrEmpty r).Nodup) :
    ∃ stored : Report,
      toggleBothFromSnapshot page1 page2 (some u1) (some u2) r = Except.ok stored
      ∧ stored.upvotes = some (upvotesOrEmpty r ++ [u2.email])
      ∧ u2.email ∈ upvotesOrEmpty stored
      ∧ u1.email ∉ upvotesOrEmpty stored
      ∧ stored.upvote_count = some ((distinctCount (upvotesOrEmpty r) : Int) + 1) := by
  have hnew : newUpvotes r u2.email = upvotesOrEmpty r ++ [u2.email] := by
    unfold newUpvotes hasUpvoted
    unfold upvotesOrEmpty at h2 ⊢
    cases hu : r.upvotes with
    | none => rfl
    | some ups =>
      rw [hu] at h2
      have hc : ups.contains u2.email = false := by simpa using h2
      simp only [hc, Bool.false_eq_true, if_false]
  have hrun : toggleBothFromSnapshot page1 page2 (some u1) (some u2) r
      = Except.ok (applyCall (applyCall r (upvoteUpdate r u1.email))
          (upvoteUpdate r u2.email)) := by
    unfold toggleBothFromSnapshot
    rw [upvoteMutationOn_some, upvoteMutationOn_some]
  have hups : (applyCall (applyCall r (upvoteUpdate r u1.email))
      (upvoteUpdate r u2.email)).upvotes = some (newUpvotes r u2.email) := rfl
  have hcount : (applyCall (applyCall r (upvoteUpdate r u1.email))
      (upvoteUpdate r u2.email)).upvote_count
        = some ((newUpvotes r u2.email).length : Int) := rfl
  have hstored : upvotesOrEmpty (applyCall (applyCall r (upvoteUpdate r u1.email))
      (upvoteUpdate r u2.email)) = upvotesOrEmpty r ++ [u2.email] := by
    unfold upvotesOrEmpty at hnew ⊢
    rw [hups]
    exact hnew
  refine ⟨_, hrun, ?_, ?_, ?_, ?_⟩
  · rw [hups, hnew]
  · rw [hstored]
    simp
  · rw [hstored]
    intro hmem
    rcases List.mem_append.1 hmem with hin | hin
    · exact h1 hin
    · exact hne (List.mem_singleton.1 hin)
  · rw [hcount, hnew]
    unfold distinctCount
    rw [List.Nodup.dedup hnd, List.length_append]
    simp

/-- C21 (witness). A report upvoted by one user; two further users toggle
from that snapshot, on the Feed and on the report page. The stored upvotes
hold the first upvoter and the second toggling user only, with a count of 2. -/
theorem concurrent_toggles_lose_first_vote_witness :
    toggleBothFromSnapshot Page.feed Page.reportDetails
        (some { email := "b@civic.org", role := "citizen" })
        (some { email := "c@civic.org", role := "citizen" })
        { blankReport "r1" with upvotes := some ["a@civic.org"], upvote_count := some 1 }
      = Except.ok
          { blankReport "r1" with
            upvotes := some ["a@civic.org", "c@civic.org"], upvote_count := some 2 }
    ∧ ∃ stored : Report,
        toggleBothFromSnapshot Page.feed Page.reportDetails
            (some { email := "b@civic.org", role := "citizen" })
            (some { email := "c@civic.org", role := "citizen" })
            { blankReport "r1" with upvotes := some ["a@civic.org"], upvote_count := some 1 }
          = Except.ok stored
        ∧ "b@civic.org" ∉ upvotesOrEmpty stored :=
  ⟨by decide,
    (concurrent_toggles_lose_first_vote Page.feed Page.reportDetails
      { email := "b@civic.org", role := "citizen" } { email := "c@civic.org", role := "citizen" }
      { blankReport "r1" with upvotes := some ["a@civic.org"], upvote_count := some 1 }
      (by decide) (by decide) (by decide) (by decide)).imp
      (fun _ hall => ⟨hall.1, hall.2.2.2.1⟩)⟩

/-! ## Theorems: the exported text -/

set_option maxRecDepth 20000 in
/-- C22. A reported pothole report with zero upvotes and zero comments is
exported with empty Upvotes and Comments cells (the two commas after
"reported" follow each other directly), and so is one whose counts are
missing; a report with 3 upvotes and 2 comments gets the cells "3" and "2". -/
theorem exported_zero_counts_are_empty_cells :
    exportReports (fun d => Except.ok d) (fun _ => none)
        [ { blankReport "r1" with
            title := some "Pothole", description := some "Deep hole",
            location := some "Main St", category := some "roads_potholes",
            status := some "reported", created_by := some "a@civic.org",
            upvote_count := some 0, comment_count := some 0 } ]
      = Except.ok (some
          ("Title,Description,Location,Category,Status,Upvotes,Comments,Sentiment,Reported By,Date,Photo URLs\n"
            ++ "Pothole,Deep hole,Main St,Roads & Potholes,reported,,,neutral,a@civic.org,2024-05-01T10:00:00Z,"))
    ∧ exportReports (fun d => Except.ok d) (fun _ => none)
        [ { blankReport "r1" with
            title := some "Pothole", description := some "Deep hole",
            location := some "Main St", category := some "roads_potholes",
            status := some "reported", created_by := some "a@civic.org" } ]
      = Except.ok (some
          ("Title,Description,Location,Category,Status,Upvotes,Comments,Sentiment,Reported By,Date,Photo URLs\n"
            ++ "Pothole,Deep hole,Main St,Roads & Potholes,reported,,,neutral,a@civic.org,2024-05-01T10:00:00Z,"))
    ∧ exportReports (fun d => Except.ok d) (fun _ => none)
        [ { blankReport "r1" with
            title := some "Pothole", description := some "Deep hole",
            location := some "Main St", category := some "roads_potholes",
            status := some "reported", created_by := some "a@civic.org",
            upvote_count := some 3, comment_count := some 2 } ]
      = Except.ok (some
          ("Title,Description,Location,Category,Status,Upvotes,Comments,Sentiment,Reported By,Date,Photo URLs\n"
            ++ "Pothole,Deep hole,Main St,Roads & Potholes,reported,3,2,neutral,a@civic.org,2024-05-01T10:00:00Z,"))
    ∧ csvCell (JsValue.num (countOrZero (some 0))) = ""
    ∧ (JsValue.num (countOrZero (some 0))).toJsString = "0" := by
  decide

theorem joinChars_cons {sep : List Char} (a : List Char) (rest : List (List Char)) :
    joinChars sep (a :: rest) = a ++ (rest.map (fun b => sep ++ b)).flatten := by
  induction rest generalizing a with
  | nil => simp [joinChars]
  | cons b rest ih =>
    rw [joinChars, ih b]
    simp [List.append_assoc]

theorem intercalate_go_data (acc sep : String) (l : List String) :
    (String.intercalate.go acc sep l).data
      = acc.data ++ (l.map (fun a => sep.data ++ a.data)).flatten := by
  induction l generalizing acc with
  | nil => simp [String.intercalate.go]
  | cons a rest ih =>
    rw [String.intercalate.go, ih]
    simp [String.data_append, List.append_assoc]

theorem intercalate_data (sep : String) (l : List String) :
    (String.intercalate sep l).data = joinChars sep.data (l.map String.data) := by
  cases l with
  | nil => rfl
  | cons a rest =>
    rw [String.intercalate, intercalate_go_data, List.map_cons, joinChars_cons, List.map_map]
    rfl

theorem mem_joinChars {sep : List Char} {c : Char} (ls : List (List Char))
    (h : c ∈ joinChars sep ls) : c ∈ sep ∨ ∃ l ∈ ls, c ∈ l := by
  cases ls with
  | nil => simp [joinChars] at h
  | cons a rest =>
    rw [joinChars_cons] at h
    rcases List.mem_append.1 h with ha | hr
    · exact Or.inr ⟨a, List.mem_cons_self a rest, ha⟩
    · obtain ⟨piece, hpiece, hc⟩ := List.mem_flatten.1 hr
      obtain ⟨b, hb, rfl⟩ := List.mem_map.1 hpiece
      rcases List.mem_append.1 hc with hs | hbb
      · exact Or.inl hs
      · exact Or.inr ⟨b, List.mem_cons_of_mem a hb, hbb⟩

theorem splitOnChar_append (sep : Char) (line l rest : List Char) (h : sep ∉ l) :
    splitOnChar sep line (l ++ rest) = splitOnChar sep (line ++ l) rest := by
  induction l generalizing line with
  | nil => simp
  | cons c cs ih =>
    have hc : c ≠ sep := fun hcs => h (by rw [hcs]; exact List.mem_cons_self sep cs)
    have hcs : sep ∉ cs := fun hm => h (List.mem_cons_of_mem c hm)
    rw [List.cons_append, splitOnChar, if_neg hc, ih _ hcs]
    simp [List.append_assoc]

theorem splitOnChar_joinChars (sep : Char) (first : List Char) (rest : List (List Char))
    (h : ∀ l ∈ first :: rest, sep ∉ l) :
    splitOnChar sep [] (joinChars [sep] (first :: rest)) = first :: rest := by
  induction rest generalizing first with
  | nil =>
    have hf := h first (List.mem_cons_self first [])
    have hsplit := splitOnChar_append sep [] first [] hf
    simp only [List.append_nil, List.nil_append] at hsplit
    rw [joinChars, hsplit, splitOnChar]
  | cons b rest ih =>
    have hf := h first (List.mem_cons_self first _)
    have hrest := ih b (fun l hl => h l (List.mem_cons_of_mem first hl))
    rw [joinChars, List.append_assoc, splitOnChar_append sep [] first _ hf, List.nil_append,
      List.singleton_append, splitOnChar, if_pos rfl, hrest]

theorem digitChar_ne_lineBreak (d : Nat) (h : d < 10) : Nat.digitChar d ≠ '\n' := by
  interval_cases d <;> decide

theorem toDigitsCore_no_lineBreak (fuel n : Nat) (ds : List Char) (h : '\n' ∉ ds) :
    '\n' ∉ Nat.toDigitsCore 10 fuel n ds := by
  induction fuel generalizing n ds with
  | zero => exact h
  | succ fuel ih =>
    have hcons : '\n' ∉ Nat.digitChar (n % 10) :: ds := by
      intro hm
      rcases List.mem_cons.1 hm with hd | hd
      · exact digitChar_ne_lineBreak (n % 10) (Nat.mod_lt n (by decide)) hd.symm
      · exact h hd
    unfold Nat.toDigitsCore
    dsimp only
    split
    · exact hcons
    · exact ih _ _ hcons

theorem int_toString_no_lineBreak (n : Int) : '\n' ∉ (toString n).data := by
  have hnat : ∀ m : Nat, '\n' ∉ (toString m).data := by
    intro m
    show '\n' ∉ (Nat.toDigits 10 m)
    exact toDigitsCore_no_lineBreak _ _ [] (by simp)
  cases n with
  | ofNat m => exact hnat m
  | negSucc m =>
    show '\n' ∉ ("-" ++ toString (Nat.succ m)).data
    rw [String.data_append]
    intro hm
    rcases List.mem_append.1 hm with hd | hd
    · exact absurd hd (by decide)
    · exact hnat _ hd

theorem readCsv_plain_append (cell s rest : List Char) (hc : ',' ∉ s) :
    readCsv CsvState.plain cell (s ++ rest) = readCsv CsvState.plain (cell ++ s) rest := by
  induction s generalizing cell with
  | nil => simp
  | cons c cs ih =>
    have hne : c ≠ ',' := fun h => hc (by rw [h]; exact List.mem_cons_self ',' cs)
    have hcs : ',' ∉ cs := fun hm => hc (List.mem_cons_of_mem c hm)
    rw [List.cons_append, readCsv, if_neg hne, ih _ hcs]
    simp [List.append_assoc]

theorem readCsv_quoted_append (cell s rest : List Char) :
    readCsv CsvState.quoted cell (doubleQuoteChars s ++ '"' :: rest)
      = readCsv CsvState.quoteSeen (cell ++ s) rest := by
  induction s generalizing cell with
  | nil =>
    rw [doubleQuoteChars, List.nil_append, readCsv, if_pos rfl, List.append_nil]
  | cons c cs ih =>
    by_cases hq : c = '"'
    · rw [doubleQuoteChars, if_pos hq, List.cons_append, List.cons_append, readCsv, if_pos rfl,
        readCsv, if_pos rfl, ih, hq]
      simp [List.append_assoc]
    · rw [doubleQuoteChars, if_neg hq, List.cons_append, readCsv, if_neg hq, ih]
      simp [List.append_assoc]

theorem readCsv_end_of_cell (st : CsvState)
    (hst : st = CsvState.cellStart ∨ st = CsvState.plain ∨ st = CsvState.quoteSeen)
    (cell rest : List Char) :
    readCsv st cell [] = [cell]
    ∧ readCsv st cell (',' :: rest) = cell :: readCsv CsvState.cellStart [] rest := by
  rcases hst with h | h | h <;> subst h
  · refine ⟨by rw [readCsv], ?_⟩
    rw [readCsv, if_neg (by decide), if_pos rfl]
  · refine ⟨by rw [readCsv], ?_⟩
    rw [readCsv, if_pos rfl]
  · refine ⟨by rw [readCsv], ?_⟩
    rw [readCsv, if_neg (by decide), if_pos rfl]

theorem csvCell_data (v : JsValue) :
    (csvCell v).data
      = if ',' ∈ ((v.orEmpty).toJsString).data ∨ '"' ∈ ((v.orEmpty).toJsString).data then
          '"' :: doubleQuoteChars ((v.orEmpty).toJsString).data ++ ['"']
        else ((v.orEmpty).toJsString).data := by
  have hrule : csvCell v = doublingRule ((v.orEmpty).toJsString) :=
    quoted_or_plain_eq_doublingRule ((v.orEmpty).toJsString)
  rw [hrule]
  unfold doublingRule
  by_cases h : ',' ∈ ((v.orEmpty).toJsString).data ∨ '"' ∈ ((v.orEmpty).toJsString).data
  · rw [if_pos h, if_pos h, doubleQuoteChars_eq]
  · rw [if_neg h, if_neg h]

theorem readCsv_rendered_cell (v : JsValue) :
    ∃ st : CsvState,
      (st = CsvState.cellStart ∨ st = CsvState.plain ∨ st = CsvState.quoteSeen)
      ∧ ∀ rest : List Char,
          readCsv CsvState.cellStart [] ((csvCell v).data ++ rest)
            = readCsv st ((v.orEmpty).toJsString).data rest := by
  rw [csvCell_data]
  by_cases h : ',' ∈ ((v.orEmpty).toJsString).data ∨ '"' ∈ ((v.orEmpty).toJsString).data
  · refine ⟨CsvState.quoteSeen, Or.inr (Or.inr rfl), fun rest => ?_⟩
    have hshape : ('"' :: doubleQuoteChars ((v.orEmpty).toJsString).data ++ ['"']) ++ rest
        = '"' :: (doubleQuoteChars ((v.orEmpty).toJsString).data ++ '"' :: rest) := by
      simp
    rw [if_pos h, hshape, readCsv, if_pos rfl, readCsv_quoted_append, List.nil_append]
  · rw [if_neg h]
    have hcomma : ',' ∉ ((v.orEmpty).toJsString).data := fun hm => h (Or.inl hm)
    have hquote : '"' ∉ ((v.orEmpty).toJsString).data := fun hm => h (Or.inr hm)
    cases ht : ((v.orEmpty).toJsString).data with
    | nil => exact ⟨CsvState.cellStart, Or.inl rfl, fun rest => rfl⟩
    | cons c cs =>
      rw [ht] at hcomma hquote
      have hc1 : c ≠ '"' := fun hq => hquote (by rw [hq]; exact List.mem_cons_self '"' cs)
      have hc2 : c ≠ ',' := fun hq => hcomma (by rw [hq]; exact List.mem_cons_self ',' cs)
      have hcs : ',' ∉ cs := fun hm => hcomma (List.mem_cons_of_mem c hm)
      refine ⟨CsvState.plain, Or.inr (Or.inl rfl), fun rest => ?_⟩
      rw [List.cons_append, readCsv, if_neg hc1, if_neg hc2, readCsv_plain_append _ _ _ hcs]
      rfl

theorem readCsvLine_rendered_cells (first : JsValue) (others : List JsValue) :
    readCsvLine (joinChars [','] ((first :: others).map (fun v => (csvCell v).data)))
      = (first :: others).map (fun v => ((v.orEmpty).toJsString).data) := by
  unfold readCsvLine
  induction others generalizing first with
  | nil =>
    obtain ⟨st, hst, hread⟩ := readCsv_rendered_cell first
    have h := hread []
    rw [List.append_nil] at h
    rw [List.map_cons, List.map_nil, joinChars, h, (readCsv_end_of_cell st hst _ []).1]
    rfl
  | cons second rest ih =>
    obtain ⟨st, hst, hread⟩ := readCsv_rendered_cell first
    rw [List.map_cons, List.map_cons, joinChars, List.append_assoc, hread,
      List.singleton_append, (readCsv_end_of_cell st hst _ _).2]
    have ih2 := ih second
    simp only [List.map_cons] at ih2 ⊢
    rw [ih2]

theorem csvLine_data (headers : List String) (row : ExportRow) :
    (csvLine headers row).data
      = joinChars [','] (headers.map (fun header => (csvCell (rowValue row header)).data)) := by
  unfold csvLine
  rw [intercalate_data, List.map_map]
  rfl

theorem mem_doubleQuoteChars {c : Char} (l : List Char) (h : c ∈ doubleQuoteChars l) :
    c ∈ l := by
  induction l with
  | nil => simp [doubleQuoteChars] at h
  | cons d ds ih =>
    unfold doubleQuoteChars at h
    by_cases hd : d = '"'
    · rw [if_pos hd] at h
      rcases List.mem_cons.1 h with h1 | h1
      · rw [h1, hd]
        exact List.mem_cons_self _ _
      · rcases List.mem_cons.1 h1 with h2 | h2
        · rw [h2, hd]
          exact List.mem_cons_self _ _
        · exact List.mem_cons_of_mem d (ih h2)
    · rw [if_neg hd] at h
      rcases List.mem_cons.1 h with h1 | h1
      · rw [h1]
        exact List.mem_cons_self _ _
      · exact List.mem_cons_of_mem d (ih h1)

theorem csvCell_no_lineBreak (v : JsValue) (h : '\n' ∉ ((v.orEmpty).toJsString).data) :
    '\n' ∉ (csvCell v).data := by
  rw [csvCell_data]
  split
  · intro hm
    rcases List.mem_cons.1 hm with h1 | h1
    · exact absurd h1 (by decide)
    · rcases List.mem_append.1 h1 with h2 | h2
      · exact h (mem_doubleQuoteChars _ h2)
      · exact absurd (List.mem_singleton.1 h2) (by decide)
  · exact h

theorem ofField_no_lineBreak (field : Option String) (h : fieldHasNoLineBreak field) :
    '\n' ∉ (((JsValue.ofField field).orEmpty).toJsString).data := by
  cases field with
  | none => exact List.not_mem_nil _
  | some text => exact h text rfl

theorem count_no_lineBreak (n : Int) :
    '\n' ∉ (((JsValue.num n).orEmpty).toJsString).data := by
  by_cases hn : n = 0
  · have hor : (JsValue.num n).orEmpty = JsValue.str "" := by
      simp [JsValue.orEmpty, hn]
    rw [hor]
    exact List.not_mem_nil _
  · have hor : (JsValue.num n).orEmpty = JsValue.num n := by
      simp [JsValue.orEmpty, hn]
    rw [hor]
    exact int_toString_no_lineBreak n

theorem lookup_mem {l : List (String × String)} {k v : String}
    (h : l.lookup k = some v) : (k, v) ∈ l := by
  induction l with
  | nil => simp [List.lookup] at h
  | cons p rest ih =>
    obtain ⟨k1, v1⟩ := p
    by_cases hk : k = k1
    · subst hk
      simp [List.lookup] at h
      rw [h]
      exact List.mem_cons_self _ _
    · have hb : (k == k1) = false := by simpa using hk
      simp only [List.lookup, hb] at h
      exact List.mem_cons_of_mem _ (ih h)

theorem categoryLabel_no_lineBreak (inheritedText : String → Option String)
    (category : Option String)
    (h : ∀ c ∈ category, ∀ text ∈ inheritedText c, '\n' ∉ text.data) :
    '\n' ∉ (((categoryLabel inheritedText category).orEmpty).toJsString).data := by
  have hlabels : ∀ p ∈ categoryLabels, '\n' ∉ p.2.data := by decide
  cases category with
  | none => exact List.not_mem_nil _
  | some c =>
    cases hl : categoryLabels.lookup c with
    | none =>
      cases hi : inheritedText c with
      | none =>
        have hc : categoryLabel inheritedText (some c) = JsValue.undefined := by
          simp [categoryLabel, hl, hi]
        rw [hc]
        exact List.not_mem_nil _
      | some text =>
        have hc : categoryLabel inheritedText (some c) = JsValue.object text := by
          simp [categoryLabel, hl, hi]
        rw [hc]
        exact h c rfl text hi
    | some label =>
      have hc : categoryLabel inheritedText (some c) = JsValue.str label := by
        simp [categoryLabel, hl]
      rw [hc]
      exact hlabels (c, label) (lookup_mem hl)

theorem sentiment_no_lineBreak (sentiment : Option String)
    (h : fieldHasNoLineBreak sentiment) :
    '\n' ∉ (((JsValue.str (sentimentOrNeutral sentiment)).orEmpty).toJsString).data := by
  show '\n' ∉ (sentimentOrNeutral sentiment).data
  cases sentiment with
  | none => decide
  | some text =>
    by_cases he : text = ""
    · have hv : sentimentOrNeutral (some text) = "neutral" := by
        simp [sentimentOrNeutral, he]
      rw [hv]
      decide
    · have hv : sentimentOrNeutral (some text) = text := by
        simp [sentimentOrNeutral, he]
      rw [hv]
      exact h text rfl

theorem photoUrls_no_lineBreak (photo_urls : Option (List String))
    (h : ∀ urls ∈ photo_urls, ∀ url ∈ urls, '\n' ∉ url.data) :
    '\n' ∉ (((JsValue.str (joinPhotoUrls photo_urls)).orEmpty).toJsString).data := by
  show '\n' ∉ (joinPhotoUrls photo_urls).data
  unfold joinPhotoUrls
  cases photo_urls with
  | none => exact List.not_mem_nil _
  | some urls =>
    show '\n' ∉ (String.intercalate ", " urls).data
    rw [intercalate_data]
    intro hm
    rcases mem_joinChars _ hm with hsep | ⟨l, hl, hc⟩
    · exact absurd hsep (by decide)
    · obtain ⟨url, hurl, rfl⟩ := List.mem_map.1 hl
      exact h urls rfl url hurl hc

theorem exportRow_values_no_lineBreak (formatDate : String → Except JsError String)
    (inheritedText : String → Option String) (r : Report)
    (row : ExportRow) (hrow : exportRow formatDate inheritedText r = Except.ok row)
    (hfor : isForAuthorities r = true) (hnb : hasNoLineBreak formatDate inheritedText r) :
    ∀ key ∈ exportKeys, '\n' ∉ (((rowValue row key).orEmpty).toJsString).data := by
  obtain ⟨status, created, date, hstatus, hc, hf, hshape⟩ :=
    exportRow_shape formatDate inheritedText r row hrow
  obtain ⟨h1, h2, h3, h4, h5, h6, h7, h8⟩ := hnb
  have hst : '\n' ∉ (replaceUnderscores status).data := by
    have hs := (isForAuthorities_iff r).1 hfor
    rw [hstatus] at hs
    rcases hs with hs | hs <;> rw [Option.some.inj hs] <;> decide
  have hdate : '\n' ∉ date.data := by
    simpa only [dateHasNoLineBreak, hc, hf] using h7
  intro key hkey
  simp only [exportKeys, List.mem_cons, List.mem_singleton, List.not_mem_nil, or_false] at hkey
  rw [hshape]
  rcases hkey with h | h | h | h | h | h | h | h | h | h | h <;> subst h
  · exact ofField_no_lineBreak _ h1
  · exact ofField_no_lineBreak _ h2
  · exact ofField_no_lineBreak _ h3
  · exact categoryLabel_no_lineBreak inheritedText _ h8
  · exact hst
  · exact count_no_lineBreak _
  · exact count_no_lineBreak _
  · exact sentiment_no_lineBreak _ h4
  · exact ofField_no_lineBreak _ h5
  · exact hdate
  · exact photoUrls_no_lineBreak _ h6

theorem csvLine_no_lineBreak (row : ExportRow)
    (h : ∀ key ∈ exportKeys, '\n' ∉ (((rowValue row key).orEmpty).toJsString).data) :
    '\n' ∉ (csvLine exportKeys row).data := by
  rw [csvLine_data]
  intro hm
  rcases mem_joinChars _ hm with hsep | ⟨l, hl, hc⟩
  · exact absurd hsep (by decide)
  · obtain ⟨key, hkey, rfl⟩ := List.mem_map.1 hl
    exact csvCell_no_lineBreak _ (h key hkey) hc

theorem forall₂_mem_left {α β : Type} {R : α → β → Prop} {ys : List α} {l : List β}
    (h : List.Forall₂ R ys l) : ∀ y ∈ ys, ∃ x ∈ l, R y x := by
  induction h with
  | nil => intro y hy; exact absurd hy (List.not_mem_nil y)
  | cons hr _ ih =>
    intro y hy
    rcases List.mem_cons.1 hy with h1 | h1
    · rw [h1]
      exact ⟨_, List.mem_cons_self _ _, hr⟩
    · obtain ⟨x, hx, hrx⟩ := ih y h1
      exact ⟨x, List.mem_cons_of_mem _ hx, hrx⟩

set_option maxRecDepth 20000 in
/-- C23 (counterexample). One reported report whose description holds a line
break, and neither a comma nor a double quote, is exported as a text that
splits on the newline character into 3 lines, not 1 + 1: the cell is written
unquoted, line break included. And one reported report that has no
`created_date` gives no text at all: the export throws the date library's
`RangeError`. -/
theorem exported_text_breaks_inside_cell :
    ([ { blankReport "r1" with
          title := some "Pothole", description := some "line one\nline two",
          location := some "Main St", category := some "roads_potholes",
          status := some "reported", created_by := some "a@civic.org" } ].filter
        isForAuthorities).length = 1
    ∧ (exportReports (fun d => Except.ok d) (fun _ => none)
        [ { blankReport "r1" with
            title := some "Pothole", description := some "line one\nline two",
            location := some "Main St", category := some "roads_potholes",
            status := some "reported", created_by := some "a@civic.org" } ]).map
        (fun exported => exported.map (fun text => (splitLines text).length))
      = Except.ok (some 3)
    ∧ exportReports (fun d => Except.ok d) (fun _ => none)
        [ { blankReport "r1" with
            title := some "Pothole", status := some "reported", created_date := none } ]
      = Except.error (JsError.rangeError "Invalid time value") := by
  decide

/-- C23 (amended). For every date formatter, every engine and every list of
reports of which `k ≥ 1` have the status reported or under_review, when each
of these reports has a `created_date` that the date library formats and none
of their exported texts (title, description, location, sentiment, author,
photo URLs, formatted date, engine text of an inherited category name) holds
a line break, the export produces a text which, split on the newline
character, is the header line followed by one line per exported report,
`k + 1` lines in all; and every one of these lines, read as CSV with quoted
cells unquoted, has 11 cells: the header names, and for a report the string
forms of the values of its row. -/
theorem exported_text_lines (formatDate : String → Except JsError String)
    (inheritedText : String → Option String) (reports : List Report)
    (hk : 1 ≤ (reports.filter isForAuthorities).length)
    (hdate : ∀ r ∈ reports, isForAuthorities r = true → dateFormats formatDate r = true)
    (hbreak : ∀ r ∈ reports, isForAuthorities r = true →
      hasNoLineBreak formatDate inheritedText r) :
    ∃ (rows : List ExportRow) (text : String),
      exportData formatDate inheritedText reports = Except.ok rows
      ∧ exportReports formatDate inheritedText reports = Except.ok (some text)
      ∧ splitLines text
        = (String.intercalate "," exportKeys).data
            :: rows.map (fun row => (csvLine exportKeys row).data)
      ∧ (splitLines text).length = (reports.filter isForAuthorities).length + 1
      ∧ readCsvLine (String.intercalate "," exportKeys).data = exportKeys.map String.data
      ∧ exportKeys.length = 11
      ∧ ∀ row ∈ rows,
          readCsvLine (csvLine exportKeys row).data
            = exportKeys.map (fun key => (((rowValue row key).orEmpty).toJsString).data) := by
  have hall : ∀ r ∈ reports.filter isForAuthorities,
      ∃ row, exportRow formatDate inheritedText r = Except.ok row := by
    intro r hr
    have hin := List.mem_filter.1 hr
    exact exportRow_ok_of_exported formatDate inheritedText r hin.2 (hdate r hin.1 hin.2)
  obtain ⟨rows, hrows, hforall⟩ :=
    mapArray_of_total (exportRow formatDate inheritedText) _ hall
  have hlen : rows.length = (reports.filter isForAuthorities).length := hforall.length_eq
  have hsource : ∀ row ∈ rows, ∃ r ∈ reports.filter isForAuthorities,
      exportRow formatDate inheritedText r = Except.ok row := forall₂_mem_left hforall
  have hkeys : ∀ row ∈ rows, row.map Prod.fst = exportKeys := by
    intro row hrow
    obtain ⟨r, _, hr⟩ := hsource row hrow
    obtain ⟨status, created, date, _, _, _, hshape⟩ :=
      exportRow_shape formatDate inheritedText r row hr
    rw [hshape]
    rfl
  have hclean : ∀ row ∈ rows, '\n' ∉ (csvLine exportKeys row).data := by
    intro row hrow
    obtain ⟨r, hrmem, hr⟩ := hsource row hrow
    have hin := List.mem_filter.1 hrmem
    exact csvLine_no_lineBreak row
      (exportRow_values_no_lineBreak formatDate inheritedText r row hr hin.2
        (hbreak r hin.1 hin.2))
  have hheaders : csvHeaders rows = exportKeys := by
    cases hr : rows with
    | nil =>
      rw [hr] at hlen
      simp only [List.length_nil] at hlen
      omega
    | cons row rest =>
      show row.map Prod.fst = exportKeys
      exact hkeys row (by rw [hr]; exact List.mem_cons_self row rest)
  have hexport : exportReports formatDate inheritedText reports
      = Except.ok (some (csvContent rows)) := by
    unfold exportReports exportData
    rw [hrows]
    have hne : ¬ rows.length = 0 := by omega
    simp only [hne, if_false]
  have hdata : (csvContent rows).data
      = joinChars ['\n'] ((String.intercalate "," exportKeys).data
          :: rows.map (fun row => (csvLine exportKeys row).data)) := by
    unfold csvContent
    rw [intercalate_data, hheaders, List.map_cons, List.map_map]
    rfl
  have hsplit : splitLines (csvContent rows)
      = (String.intercalate "," exportKeys).data
          :: rows.map (fun row => (csvLine exportKeys row).data) := by
    unfold splitLines
    rw [hdata]
    apply splitOnChar_joinChars
    intro l hl
    rcases List.mem_cons.1 hl with h1 | h1
    · rw [h1]
      decide
    · obtain ⟨row, hrow, rfl⟩ := List.mem_map.1 h1
      exact hclean row hrow
  refine ⟨rows, csvContent rows, ?_, hexport, hsplit, ?_, by decide, rfl, ?_⟩
  · unfold exportData
    exact hrows
  · rw [hsplit, List.length_cons, List.length_map, hlen]
  · intro row _
    rw [csvLine_data]
    have hmap : exportKeys.map (fun header => (csvCell (rowValue row header)).data)
        = (exportKeys.map (rowValue row)).map (fun v => (csvCell v).data) := by
      rw [List.map_map]
      rfl
    have hmap2 : exportKeys.map (fun key => (((rowValue row key).orEmpty).toJsString).data)
        = (exportKeys.map (rowValue row)).map (fun v => ((v.orEmpty).toJsString).data) := by
      rw [List.map_map]
      rfl
    rw [hmap, hmap2]
    exact readCsvLine_rendered_cells _ _

set_option maxRecDepth 20000 in
/-- C23 (witness). A resolved report, which has no date, and a reported one
whose description holds a comma and whose title holds quoted words: the
exported text has 2 lines. -/
theorem exported_text_lines_witness :
    (exportReports (fun d => Except.ok d) (fun _ => none)
        [ { blankReport "r1" with
            status := some "resolved", title := some "Old", created_date := none },
          { blankReport "r2" with
            title := some "The \"big\" pothole", description := some "Deep, wide hole",
            location := some "Main St", category := some "roads_potholes",
            status := some "reported", created_by := some "a@civic.org",
            upvote_count := some 3 } ]).map
        (fun exported => exported.map (fun text => (splitLines text).length))
      = Except.ok (some 2)
    ∧ ∃ text : String,
        exportReports (fun d => Except.ok d) (fun _ => none)
          [ { blankReport "r1" with
              status := some "resolved", title := some "Old", created_date := none },
            { blankReport "r2" with
              title := some "The \"big\" pothole", description := some "Deep, wide hole",
              location := some "Main St", category := some "roads_potholes",
              status := some "reported", created_by := some "a@civic.org",
              upvote_count := some 3 } ] = Except.ok (some text)
        ∧ (splitLines text).length = 1 + 1 :=
  ⟨by decide,
    (exported_text_lines (fun d => Except.ok d) (fun _ => none)
      [ { blankReport "r1" with
          status := some "resolved", title := some "Old", created_date := none },
        { blankReport "r2" with
          title := some "The \"big\" pothole", description := some "Deep, wide hole",
          location := some "Main St", category := some "roads_potholes",
          status := some "reported", created_by := some "a@civic.org",
          upvote_count := some 3 } ]
      (by decide) (by decide) (by decide)).elim
      (fun _ hrow => hrow.imp (fun _ hall => ⟨hall.2.1, hall.2.2.2.1⟩))⟩

end CivicHub
